import Mathlib

/-
Verification development for the tree-construction stage of the HTML5
parser in src/exp/html/parse.go.  The mutable pointer-based Go tree is
embedded as an arena: nodes live in an array and every Go pointer becomes
the index of its node, so Go pointer equality is index equality.  Go
panics become Except.error values.  Code of the repository that is not in
src (node.go, token.go, const.go, foreign.go, the tokenizer) is modelled
from the spec; every such definition carries a doc comment starting with
"Modelled from the spec:".
-/

set_option maxRecDepth 4096

/-- Modelled from the spec: the token kinds of the tokenizer contract (spec 6):
Error (EOF), Text, StartTag, EndTag, SelfClosingTag, Comment, Doctype. -/
inductive TokType where
  | Error
  | Text
  | StartTag
  | EndTag
  | SelfClosingTag
  | Comment
  | Doctype
deriving DecidableEq, Repr

/-- Modelled from the spec: an attribute is a key/value pair; foreign-attribute
adjustment can set a namespace part on it (spec 4.5, 6). -/
structure Attribute where
  ns : String := ""
  key : String := ""
  val : String := ""
deriving DecidableEq, Repr

/-- Modelled from the spec: a token carries its kind, a payload string
(tag name, text, comment text or doctype text) and an attribute list (spec 6). -/
structure Token where
  type : TokType := .Error
  data : String := ""
  attr : List Attribute := []
deriving DecidableEq, Repr

/-- Modelled from the spec: the node kinds of the node model (spec 3), with the
internal ScopeMarker kind used only inside the active-formatting-elements list. -/
inductive NodeType where
  | ErrorNode
  | TextNode
  | DocumentNode
  | ElementNode
  | CommentNode
  | DoctypeNode
  | scopeMarkerNode
deriving DecidableEq, Repr

/-- Modelled from the spec: a tree node with parent/children links, a kind, a
string payload, a namespace identifier and an attribute list (spec 3).  Links
are arena indices. -/
structure Node where
  parent : Option Nat := none
  child : List Nat := []
  type : NodeType := .ErrorNode
  data : String := ""
  ns : String := ""
  attr : List Attribute := []
deriving DecidableEq, Repr

/-- The insertion modes of section 12.2.5.4, as an enumeration standing for the
Go insertion-mode function pointers. -/
inductive IM where
  | initial
  | beforeHTML
  | beforeHead
  | inHead
  | afterHead
  | inBody
  | text
  | inTable
  | inCaption
  | inColumnGroup
  | inTableBody
  | inRow
  | inCell
  | inSelect
  | inSelectInTable
  | afterBody
  | inFrameset
  | afterFrameset
  | afterAfterBody
  | afterAfterFrameset
deriving DecidableEq, Repr

/-- The parser state of parse.go: the node arena plus the fields of the Go
parser struct (tok, hasSelfClosingToken, doc, oe, afe, head, form, scripting,
framesetOK, im, originalIM, fosterParenting, quirks, context). -/
structure Parser where
  nodes : Array Node := #[]
  tok : Token := {}
  hasSelfClosingToken : Bool := false
  doc : Nat := 0
  oe : List Nat := []
  afe : List Nat := []
  head : Option Nat := none
  form : Option Nat := none
  scripting : Bool := false
  framesetOK : Bool := false
  im : IM := .initial
  originalIM : Option IM := none
  fosterParenting : Bool := false
  quirks : Bool := false
  context : Option Nat := none
deriving DecidableEq, Repr

/-- Reading a node through its arena index (a Go pointer dereference; valid
states only hold valid indices, so the default is never seen in a real run). -/
def getNode (p : Parser) (i : Nat) : Node :=
  p.nodes.getD i {}

/-- Writing a node through its arena index. -/
def setNode (p : Parser) (i : Nat) (n : Node) : Parser :=
  {p with nodes := p.nodes.setD i n}

def modifyNode (p : Parser) (i : Nat) (f : Node → Node) : Parser :=
  setNode p i (f (getNode p i))

/-- Allocating a fresh node (a Go new-Node expression); returns its index. -/
def newNode (p : Parser) (nd : Node) : Parser × Nat :=
  ({p with nodes := p.nodes.push nd}, p.nodes.size)

/-- The string " \t\r\n\f" of whitespace characters from parse.go. -/
def whitespace : List Char := [' ', '\t', '\r', '\n', '\x0c']

/-- Go strings.TrimLeft with a character cut set. -/
def trimLeftStr (s : String) (cutset : List Char) : String :=
  String.mk (s.toList.dropWhile (fun c => cutset.contains c))

/-- Go strings.Trim with a character cut set. -/
def trimStr (s : String) (cutset : List Char) : String :=
  String.mk (((s.toList.dropWhile (fun c => cutset.contains c)).reverse.dropWhile
    (fun c => cutset.contains c)).reverse)

/-- Go strings.Replace of NUL bytes by the empty string, count -1. -/
def removeNul (s : String) : String :=
  String.mk (s.toList.filter (fun c => c ≠ '\x00'))

/-- Go strings.Map that keeps whitespace characters and drops the rest. -/
def keepWhitespace (s : String) : String :=
  String.mk (s.toList.filter (fun c => whitespace.contains c))

/-- Go strings.ToLower (ASCII is all the parser needs). -/
def lowerStr (s : String) : String :=
  String.mk (s.toList.map Char.toLower)

/-- Go strings.EqualFold (ASCII case-insensitive equality). -/
def equalFold (a b : String) : Bool :=
  a.toList.map Char.toLower = b.toList.map Char.toLower

/-- Modelled from the spec: the arena index of the shared scopeMarker sentinel
node (spec 3: ScopeMarker sentinels in the AFE list); parse.go pushes the
address of one global marker node, here the reserved index 0. -/
def scopeMarkerIdx : Nat := 0

/-- Modelled from the spec: nodeStack.top returns the last (topmost) element
or nil. -/
def stackTop (s : List Nat) : Option Nat :=
  s.getLast?

/-- Modelled from the spec: nodeStack.pop removes and returns the topmost
element; on an empty stack the Go slice indexing aborts. -/
def stackPop (s : List Nat) : Except String (Nat × List Nat) :=
  match s.getLast? with
  | some n => Except.ok (n, s.dropLast)
  | none => Except.error "index out of range"

/-- Position of the first occurrence of a value in a list, used on reversed
stacks to find the highest occurrence. -/
def revIndexAux (n : Nat) : List Nat → Option Nat
  | [] => none
  | a :: l => if a = n then some 0 else (revIndexAux n l).map (fun j => j + 1)

/-- Modelled from the spec: nodeStack.index returns the highest index holding
the given node, scanning from the top, or nil (-1 in Go, none here). -/
def stackIndex (s : List Nat) (n : Nat) : Option Nat :=
  (revIndexAux n s.reverse).map (fun j => s.length - 1 - j)

/-- Modelled from the spec: nodeStack.remove deletes the occurrence of the node
found by nodeStack.index and is a no-op when the node is absent. -/
def stackRemove (s : List Nat) (n : Nat) : List Nat :=
  match stackIndex s n with
  | some i => s.take i ++ s.drop (i + 1)
  | none => s

/-- List insertion at a position, the underlying operation of nodeStack.insert. -/
def insertAt (i : Nat) (n : Nat) (s : List Nat) : List Nat :=
  s.take i ++ n :: s.drop i

/-- Modelled from the spec: nodeStack.insert places a node at a position;
positions outside 0..len abort in Go. -/
def stackInsert (s : List Nat) (i : Int) (n : Nat) : Except String (List Nat) :=
  if 0 ≤ i ∧ i ≤ (s.length : Int) then Except.ok (insertAt i.toNat n s)
  else Except.error "index out of range"

/-- List indexing with a Go int index; out of range aborts. -/
def listGetI (s : List Nat) (i : Int) : Except String Nat :=
  if 0 ≤ i ∧ i < (s.length : Int) then Except.ok (s.getD i.toNat 0)
  else Except.error "index out of range"

/-- Modelled from the spec: Node.Add appends a child to a node and sets the
child's parent link (spec 3, 4.1). -/
def nodeAdd (p : Parser) (parentIdx childIdx : Nat) : Parser :=
  let p := modifyNode p parentIdx (fun nd => {nd with child := nd.child ++ [childIdx]})
  modifyNode p childIdx (fun nd => {nd with parent := some parentIdx})

/-- Modelled from the spec: Node.Remove deletes a child from a node's child
list and clears the child's parent link; absent children are a no-op. -/
def nodeRemove (p : Parser) (parentIdx childIdx : Nat) : Parser :=
  let cs := (getNode p parentIdx).child
  match cs.indexOf? childIdx with
  | some i =>
    let p := modifyNode p parentIdx (fun nd => {nd with child := cs.take i ++ cs.drop (i + 1)})
    modifyNode p childIdx (fun nd => {nd with parent := none})
  | none => p

/-- Modelled from the spec: Node.clone produces a fresh parentless childless
node sharing tag, namespace and attribute list with its source (spec 8,
invariant 6). -/
def cloneNode (p : Parser) (i : Nat) : Parser × Nat :=
  let nd := getNode p i
  newNode p {type := nd.type, data := nd.data, ns := nd.ns, attr := nd.attr}

/-- Modelled from the spec: reparentChildren moves all children of src to the
end of dst, preserving order (spec 4.1). -/
def reparentChildren (p : Parser) (dst src : Nat) : Parser :=
  let cs := (getNode p src).child
  let p := cs.foldl (fun p c => modifyNode p c (fun nd => {nd with parent := some dst})) p
  let p := modifyNode p dst (fun nd => {nd with child := nd.child ++ cs})
  modifyNode p src (fun nd => {nd with child := []})

/-- parser.top: the top of the stack of open elements, or the document. -/
def topIdx (p : Parser) : Nat :=
  match stackTop p.oe with
  | some n => n
  | none => p.doc

/-- The defaultScopeStopTags table of parse.go, keyed by namespace (a Go map
lookup; missing keys give the empty list, like a nil slice). -/
def defaultScopeStopTags (ns : String) : List String :=
  if ns = "" then ["applet", "caption", "html", "table", "td", "th", "marquee", "object"]
  else if ns = "math" then ["annotation-xml", "mi", "mn", "mo", "ms", "mtext"]
  else if ns = "svg" then ["desc", "foreignObject", "title"]
  else []

/-- The scope enumeration of parse.go. -/
inductive scope where
  | defaultScope
  | listItemScope
  | buttonScope
  | tableScope
  | tableRowScope
  | tableBodyScope
  | selectScope
deriving DecidableEq, Repr

/-- One stack entry of the indexOfElementInScope scan: some (some i) is an
immediate match result, some none is an early stop (-1), none means the scan
continues below.  The unreachable scope arm aborts like the Go panic. -/
def inScopeStep (p : Parser) (s : scope) (matchTags : List String) (i : Nat) :
    Except String (Option (Option Nat)) := do
  let nd := getNode p (p.oe.getD i 0)
  let tag := nd.data
  let afterNs : Except String (Option (Option Nat)) :=
    match s with
    | .defaultScope | .listItemScope | .buttonScope =>
      if (defaultScopeStopTags nd.ns).contains tag then Except.ok (some none)
      else Except.ok none
    | _ => Except.ok none
  if nd.ns = "" then
    if matchTags.contains tag then
      Except.ok (some (some i))
    else do
      let stopHere ← (match s with
        | .defaultScope => Except.ok false
        | .listItemScope => Except.ok (tag = "ol" || tag = "ul")
        | .buttonScope => Except.ok (tag = "button")
        | .tableScope => Except.ok (tag = "html" || tag = "table")
        | .selectScope => Except.ok (tag ≠ "optgroup" && tag ≠ "option")
        | _ => Except.error "unreachable")
      if stopHere then Except.ok (some none) else afterNs
  else
    afterNs

/-- The top-down scan of indexOfElementInScope; the Nat argument is one plus
the index currently examined. -/
def indexOfElementInScopeAux (p : Parser) (s : scope) (matchTags : List String) :
    Nat → Except String (Option Nat)
  | 0 => Except.ok none
  | i + 1 => do
    match ← inScopeStep p s matchTags i with
    | some r => Except.ok r
    | none => indexOfElementInScopeAux p s matchTags i

/-- parser.indexOfElementInScope: index in oe of the highest matching element
in scope, or none (-1). -/
def indexOfElementInScope (p : Parser) (s : scope) (matchTags : List String) :
    Except String (Option Nat) :=
  indexOfElementInScopeAux p s matchTags p.oe.length

/-- parser.elementInScope. -/
def elementInScope (p : Parser) (s : scope) (matchTags : List String) :
    Except String Bool := do
  Except.ok (← indexOfElementInScope p s matchTags).isSome

/-- parser.popUntil: pops the stack of open elements at the highest matching
in-scope element; on a miss the stack is unchanged. -/
def popUntil (p : Parser) (s : scope) (matchTags : List String) :
    Except String (Bool × Parser) := do
  match ← indexOfElementInScope p s matchTags with
  | some i => Except.ok (true, {p with oe := p.oe.take i})
  | none => Except.ok (false, p)

/-- The top-down loop of clearStackToContext; the default arm aborts. -/
def clearStackToContextAux (p : Parser) (s : scope) : Nat → Except String (List Nat)
  | 0 => Except.ok p.oe
  | i + 1 => do
    let tag := (getNode p (p.oe.getD i 0)).data
    let stopHere ← (match s with
      | .tableScope => Except.ok (tag = "html" || tag = "table")
      | .tableRowScope => Except.ok (tag = "html" || tag = "tr")
      | .tableBodyScope =>
        Except.ok (tag = "html" || tag = "tbody" || tag = "tfoot" || tag = "thead")
      | _ => Except.error "unreachable")
    if stopHere then Except.ok (p.oe.take (i + 1))
    else clearStackToContextAux p s i

/-- parser.clearStackToContext. -/
def clearStackToContext (p : Parser) (s : scope) : Except String Parser := do
  Except.ok {p with oe := ← clearStackToContextAux p s p.oe.length}

/-- Modelled from the spec: isSpecialElement decides the WHATWG special
category (spec glossary: elements that terminate scope walks and act as
furthest blocks), per namespace. -/
def isSpecialElement (nd : Node) : Bool :=
  if nd.ns = "" || nd.ns = "html" then
    ["address", "applet", "area", "article", "aside", "base", "basefont", "bgsound",
     "blockquote", "body", "br", "button", "caption", "center", "col", "colgroup",
     "command", "dd", "details", "dir", "div", "dl", "dt", "embed", "fieldset",
     "figcaption", "figure", "footer", "form", "frame", "frameset", "h1", "h2", "h3",
     "h4", "h5", "h6", "head", "header", "hgroup", "hr", "html", "iframe", "img",
     "input", "isindex", "li", "link", "listing", "marquee", "menu", "meta", "nav",
     "noembed", "noframes", "noscript", "object", "ol", "p", "param", "plaintext",
     "pre", "script", "section", "select", "style", "summary", "table", "tbody",
     "td", "textarea", "tfoot", "th", "thead", "title", "tr", "ul", "wbr",
     "xmp"].contains nd.data
  else if nd.ns = "math" then
    ["mi", "mo", "mn", "ms", "mtext", "annotation-xml"].contains nd.data
  else if nd.ns = "svg" then
    ["foreignObject", "desc", "title"].contains nd.data
  else false

/-- The loop of generateImpliedEndTags; returns the number of stack entries to
keep. -/
def generateImpliedEndTagsAux (p : Parser) (exceptions : List String) : Nat → Nat
  | 0 => 0
  | i + 1 =>
    let nd := getNode p (p.oe.getD i 0)
    if nd.type = .ElementNode &&
       ["dd", "dt", "li", "option", "optgroup", "p", "rp", "rt"].contains nd.data then
      if exceptions.contains nd.data then i + 1
      else generateImpliedEndTagsAux p exceptions i
    else i + 1

/-- parser.generateImpliedEndTags. -/
def generateImpliedEndTags (p : Parser) (exceptions : List String) : Parser :=
  {p with oe := p.oe.take (generateImpliedEndTagsAux p exceptions p.oe.length)}

/-- The nodeStack.index result as a Go int (-1 when absent). -/
def stackIndexI (s : List Nat) (n : Nat) : Int :=
  match stackIndex s n with
  | some i => (i : Int)
  | none => -1

/-- List update at a Go int index; out of range aborts. -/
def listSetI (s : List Nat) (i : Int) (n : Nat) : Except String (List Nat) :=
  if 0 ≤ i ∧ i < (s.length : Int) then Except.ok (s.set i.toNat n)
  else Except.error "index out of range"

/-- The first loop of fosterParent: scan the open-elements stack top-down for
a table element; returns the Go loop variables table (possibly nil) and i
(the found stack index, or -1 when the loop ran out). -/
def findTableAux (p : Parser) : Nat → Option Nat × Int
  | 0 => (none, -1)
  | i + 1 =>
    if (getNode p (p.oe.getD i 0)).data = "table" then (some (p.oe.getD i 0), (i : Int))
    else findTableAux p i

/-- The body of the Go range loop of fosterParent over the foster parent's
children: i takes the index of the child equal to table, and is left at the
last index when no child matches (Go range semantics on a completed loop). -/
def rangeChildScanGo (table? : Option Nat) : List Nat → Nat → Nat
  | [], j => j
  | [c], j =>
    let _ := c
    j
  | c :: rest, j => if some c = table? then j else rangeChildScanGo table? rest (j + 1)

/-- The Go range loop of fosterParent: an empty child list leaves i at its
previous value. -/
def rangeChildScan (cs : List Nat) (table? : Option Nat) (iOld : Int) : Int :=
  match cs with
  | [] => iOld
  | _ => (rangeChildScanGo table? cs 0 : Int)

/-- The final insertion step of fosterParent: i equal to the child count means
parent.Add, otherwise insert at index i (out-of-range slice bounds abort). -/
def fosterInsert (p : Parser) (parentIdx : Nat) (cs : List Nat) (i1 : Int) (n : Nat) :
    Except String Parser :=
  if i1 = (cs.length : Int) then Except.ok (nodeAdd p parentIdx n)
  else if 0 ≤ i1 ∧ i1 < (cs.length : Int) then
    let p := modifyNode p parentIdx (fun nd => {nd with child := insertAt i1.toNat n cs})
    Except.ok (modifyNode p n (fun nd => {nd with parent := some parentIdx}))
  else Except.error "index out of range"

/-- parser.fosterParent (section 12.2.5.3), including the reuse of the Go loop
variable i between the stack scan and the child range loop. -/
def fosterParent (p0 : Parser) (n : Nat) : Except String Parser := do
  let p := {p0 with fosterParenting := false}
  let (table?, i0) := findTableAux p p.oe.length
  let parent? : Option Nat ←
    match table? with
    | none => do
      let r ← listGetI p.oe 0
      Except.ok (some r)
    | some t => Except.ok (getNode p t).parent
  let parentIdx ← (match parent? with
    | some q => Except.ok q
    | none => listGetI p.oe (i0 - 1))
  let cs := (getNode p parentIdx).child
  let i1 := rangeChildScan cs table? i0
  if 0 < i1 then do
    let c ← listGetI cs (i1 - 1)
    if (getNode p c).type = .TextNode && (getNode p n).type = .TextNode then
      Except.ok (modifyNode p c (fun nd => {nd with data := nd.data ++ (getNode p n).data}))
    else
      fosterInsert p parentIdx cs i1 n
  else
    fosterInsert p parentIdx cs i1 n

/-- parser.addChild: foster or append to top, then push elements onto the
stack of open elements. -/
def addChild (p : Parser) (n : Nat) : Except String Parser := do
  let p ← if p.fosterParenting then fosterParent p n
          else Except.ok (nodeAdd p (topIdx p) n)
  if (getNode p n).type = .ElementNode then Except.ok {p with oe := p.oe ++ [n]}
  else Except.ok p

/-- parser.addText: concatenate onto a trailing text child of top, or addChild
a new text node. -/
def addText (p : Parser) (text : String) : Except String Parser := do
  let t := topIdx p
  let cs := (getNode p t).child
  match cs.getLast? with
  | some lastC =>
    if (getNode p lastC).type = .TextNode then
      Except.ok (modifyNode p lastC (fun nd => {nd with data := nd.data ++ text}))
    else
      let (p, n) := newNode p {type := .TextNode, data := text}
      addChild p n
  | none =>
    let (p, n) := newNode p {type := .TextNode, data := text}
    addChild p n

/-- parser.addElement. -/
def addElement (p : Parser) (tag : String) (attr : List Attribute) : Except String Parser :=
  let (p, n) := newNode p {type := .ElementNode, data := tag, attr := attr}
  addChild p n

/-- parser.addFormattingElement (section 12.2.3.3). -/
def addFormattingElement (p : Parser) (tag : String) (attr : List Attribute) :
    Except String Parser := do
  let p ← addElement p tag attr
  Except.ok {p with afe := p.afe ++ [topIdx p]}

/-- The pop loop of clearActiveFormattingElements, over the reversed AFE list. -/
def clearAFEAux (p : Parser) : List Nat → Except String (List Nat)
  | [] => Except.error "index out of range"
  | n :: rest =>
    if rest.length = 0 || (getNode p n).type == .scopeMarkerNode then Except.ok rest
    else clearAFEAux p rest

/-- parser.clearActiveFormattingElements (section 12.2.3.3). -/
def clearActiveFormattingElements (p : Parser) : Except String Parser := do
  let afeRev ← clearAFEAux p p.afe.reverse
  Except.ok {p with afe := afeRev.reverse}

/-- The backwards search of reconstructActiveFormattingElements: walk the AFE
list down from the top while entries are neither markers nor on the open
stack; none is the Go i sentinel -1. -/
def reconstructFind (p : Parser) : Nat → Option Nat
  | 0 =>
    let nIdx := p.afe.getD 0 0
    let n := getNode p nIdx
    if n.type ≠ .scopeMarkerNode ∧ (stackIndex p.oe nIdx).isNone then none
    else some 0
  | i + 1 =>
    let nIdx := p.afe.getD (i + 1) 0
    let n := getNode p nIdx
    if n.type ≠ .scopeMarkerNode ∧ (stackIndex p.oe nIdx).isNone then reconstructFind p i
    else some (i + 1)

/-- The cloning loop of reconstructActiveFormattingElements, with fuel (the
loop runs at most the AFE length). -/
def reconstructBuild : Nat → Parser → Nat → Except String Parser
  | 0, _, _ => Except.error "out of fuel"
  | fuel + 1, p, j => do
    let (p, c) := cloneNode p (p.afe.getD j 0)
    let p ← addChild p c
    let p := {p with afe := p.afe.set j c}
    if j = p.afe.length - 1 then Except.ok p
    else reconstructBuild fuel p (j + 1)

/-- parser.reconstructActiveFormattingElements (section 12.2.3.3). -/
def reconstructActiveFormattingElements (p : Parser) : Except String Parser := do
  match p.afe.getLast? with
  | none => Except.ok p
  | some nIdx =>
    if (getNode p nIdx).type == .scopeMarkerNode || (stackIndex p.oe nIdx).isSome then
      Except.ok p
    else
      let start := match reconstructFind p (p.afe.length - 1) with
        | none => 0
        | some i => i + 1
      reconstructBuild (p.afe.length + 1) p start

/-- parser.setOriginalIM: saving twice without clearing aborts. -/
def setOriginalIM (p : Parser) : Except String Parser :=
  if p.originalIM.isSome then
    Except.error "html: bad parser state: originalIM was set twice"
  else Except.ok {p with originalIM := some p.im}

/-- The stack walk of resetInsertionMode. -/
def resetInsertionModeAux (p : Parser) : Nat → IM
  | 0 => .inBody
  | i + 1 =>
    let nIdx := p.oe.getD i 0
    let nIdx := if i = 0 ∧ p.context.isSome then p.context.getD 0 else nIdx
    match (getNode p nIdx).data with
    | "select" => .inSelect
    | "td" | "th" => .inCell
    | "tr" => .inRow
    | "tbody" | "thead" | "tfoot" => .inTableBody
    | "caption" => .inCaption
    | "colgroup" => .inColumnGroup
    | "table" => .inTable
    | "head" => .inBody
    | "body" => .inBody
    | "frameset" => .inFrameset
    | "html" => .beforeHead
    | _ => resetInsertionModeAux p i

/-- parser.resetInsertionMode (section 12.2.3.1). -/
def resetInsertionMode (p : Parser) : Parser :=
  {p with im := resetInsertionModeAux p p.oe.length}

/-- copyAttributes copies attributes of the token not already keyed on the
destination node. -/
def copyAttributes (p : Parser) (dst : Nat) (src : Token) : Parser :=
  if src.attr = [] then p
  else
    let newAttr := src.attr.foldl
      (fun acc a => if acc.any (fun b => b.key = a.key) then acc else acc ++ [a])
      (getNode p dst).attr
    modifyNode p dst (fun nd => {nd with attr := newAttr})

/-- The stack walk of inBodyEndTagOther. -/
def inBodyEndTagOtherAux (p : Parser) (tag : String) : Nat → List Nat
  | 0 => p.oe
  | i + 1 =>
    let nd := getNode p (p.oe.getD i 0)
    if nd.data = tag then p.oe.take i
    else if isSpecialElement nd then p.oe
    else inBodyEndTagOtherAux p tag i

/-- parser.inBodyEndTagOther, the any-other-end-tag algorithm of inBodyIM. -/
def inBodyEndTagOther (p : Parser) (tag : String) : Parser :=
  {p with oe := inBodyEndTagOtherAux p tag p.oe.length}

/-- Step 4 of the adoption agency: scan the AFE list from the end back to the
nearest scope marker for an element with the given tag. -/
def findFormattingElementAux (p : Parser) (tag : String) : Nat → Option Nat
  | 0 => none
  | j + 1 =>
    let e := p.afe.getD j 0
    if (getNode p e).type = .scopeMarkerNode then none
    else if (getNode p e).data = tag then some e
    else findFormattingElementAux p tag j

/-- The pop loop of step 6 of the adoption agency, over the reversed stack:
pop elements until the formatting element itself has been popped. -/
def popThroughAux (fe : Nat) : List Nat → Except String (List Nat)
  | [] => Except.error "index out of range"
  | e :: rest => if e = fe then Except.ok rest else popThroughAux fe rest

/-- Pop the stack of open elements down through and including an element. -/
def popThrough (s : List Nat) (fe : Nat) : Except String (List Nat) := do
  Except.ok (← popThroughAux fe s.reverse).reverse

/-- The mutable state of the inner loop (steps 9.1-9.10) of the adoption
agency: parser, Go loop variable x, node, lastNode and the AFE bookmark. -/
structure InnerSt where
  p : Parser
  x : Int
  node : Nat
  lastNode : Nat
  bookmark : Int
deriving Repr

/-- The inner loop (steps 9.1-9.10) of the adoption agency, three iterations. -/
def adoptionInner (formattingElement furthestBlock : Nat) :
    Nat → InnerSt → Except String InnerSt
  | 0, st => Except.ok st
  | j + 1, st => do
    let x := st.x - 1
    let node ← listGetI st.p.oe x
    if stackIndexI st.p.afe node = -1 then
      adoptionInner formattingElement furthestBlock j
        {st with p := {st.p with oe := stackRemove st.p.oe node}, x := x, node := node}
    else if node = formattingElement then
      Except.ok {st with x := x, node := node}
    else do
      let (p, clone) := cloneNode st.p node
      let afe' ← listSetI p.afe (stackIndexI p.afe node) clone
      let p := {p with afe := afe'}
      let oe' ← listSetI p.oe (stackIndexI p.oe node) clone
      let p := {p with oe := oe'}
      let node := clone
      let bookmark :=
        if st.lastNode = furthestBlock then stackIndexI p.afe node + 1
        else st.bookmark
      let p := match (getNode p st.lastNode).parent with
        | some par => nodeRemove p par st.lastNode
        | none => p
      let p := nodeAdd p node st.lastNode
      adoptionInner formattingElement furthestBlock j
        {p := p, x := x, node := node, lastNode := node, bookmark := bookmark}

/-- The outer loop (8 iterations) of parser.inBodyEndTagFormatting, the
adoption agency algorithm. -/
def inBodyEndTagFormattingLoop (tag : String) : Nat → Parser → Except String Parser
  | 0, p => Except.ok p
  | it + 1, p => do
    match findFormattingElementAux p tag p.afe.length with
    | none => Except.ok (inBodyEndTagOther p tag)
    | some formattingElement =>
      match stackIndex p.oe formattingElement with
      | none => Except.ok {p with afe := stackRemove p.afe formattingElement}
      | some feIndex => do
        if !(← elementInScope p .defaultScope [tag]) then
          Except.ok p
        else
          match (p.oe.drop feIndex).find? (fun e => isSpecialElement (getNode p e)) with
          | none => do
            let oe' ← popThrough p.oe formattingElement
            Except.ok {p with oe := oe', afe := stackRemove p.afe formattingElement}
          | some furthestBlock => do
            let commonAncestor ← listGetI p.oe ((feIndex : Int) - 1)
            let bookmark := stackIndexI p.afe formattingElement
            let x := stackIndexI p.oe furthestBlock
            let st ← adoptionInner formattingElement furthestBlock 3
              {p := p, x := x, node := furthestBlock, lastNode := furthestBlock,
               bookmark := bookmark}
            let p := st.p
            let lastNode := st.lastNode
            let bookmark := st.bookmark
            let p := match (getNode p lastNode).parent with
              | some par => nodeRemove p par lastNode
              | none => p
            let p ← (match (getNode p commonAncestor).data with
              | "table" | "tbody" | "tfoot" | "thead" | "tr" => fosterParent p lastNode
              | _ => Except.ok (nodeAdd p commonAncestor lastNode))
            let (p, clone) := cloneNode p formattingElement
            let p := reparentChildren p clone furthestBlock
            let p := nodeAdd p furthestBlock clone
            let oldLoc := stackIndexI p.afe formattingElement
            let bookmark := if oldLoc ≠ -1 ∧ oldLoc < bookmark then bookmark - 1 else bookmark
            let p := {p with afe := stackRemove p.afe formattingElement}
            let afe' ← stackInsert p.afe bookmark clone
            let p := {p with afe := afe'}
            let p := {p with oe := stackRemove p.oe formattingElement}
            let oe' ← stackInsert p.oe (stackIndexI p.oe furthestBlock + 1) clone
            let p := {p with oe := oe'}
            inBodyEndTagFormattingLoop tag it p

/-- parser.inBodyEndTagFormatting, the adoption agency (section 12.2.5.4.7). -/
def inBodyEndTagFormatting (p : Parser) (tag : String) : Except String Parser :=
  inBodyEndTagFormattingLoop tag 8 p

/-- Modelled from the spec: MathML text integration points are mi, mo, mn, ms,
mtext in the math namespace (spec glossary). -/
def mathMLTextIntegrationPoint (nd : Node) : Bool :=
  nd.ns == "math" && ["mi", "mo", "mn", "ms", "mtext"].contains nd.data

/-- Modelled from the spec: HTML integration points are desc, foreignObject and
title in the svg namespace, and annotation-xml in the math namespace whose
encoding attribute matches an HTML encoding (spec glossary). -/
def htmlIntegrationPoint (nd : Node) : Bool :=
  if nd.ns == "math" then
    nd.data == "annotation-xml" && nd.attr.any (fun a =>
      a.key == "encoding" &&
        (lowerStr a.val == "text/html" || lowerStr a.val == "application/xhtml+xml"))
  else if nd.ns == "svg" then
    ["desc", "foreignObject", "title"].contains nd.data
  else false

/-- Modelled from the spec: the breakout tag set of foreign content (spec 4.5
lists it in full). -/
def breakout : List String :=
  ["b", "big", "blockquote", "body", "br", "center", "code", "dd", "div", "dl",
   "dt", "em", "embed", "h1", "h2", "h3", "h4", "h5", "h6", "head", "hr", "i",
   "img", "li", "listing", "menu", "meta", "nobr", "ol", "p", "pre", "ruby",
   "s", "small", "span", "strong", "strike", "sub", "sup", "table", "tt", "u",
   "ul", "var"]

/-- Modelled from the spec: the SVG tag names with a canonical mixed-case form
(spec 4.5; a missing key gives the empty string, like a Go map). -/
def svgTagNameAdjustments (k : String) : String :=
  (([("altglyph", "altGlyph"), ("altglyphdef", "altGlyphDef"),
     ("altglyphitem", "altGlyphItem"), ("animatecolor", "animateColor"),
     ("animatemotion", "animateMotion"), ("animatetransform", "animateTransform"),
     ("clippath", "clipPath"), ("feblend", "feBlend"),
     ("fecolormatrix", "feColorMatrix"), ("fecomponenttransfer", "feComponentTransfer"),
     ("fecomposite", "feComposite"), ("feconvolvematrix", "feConvolveMatrix"),
     ("fediffuselighting", "feDiffuseLighting"), ("fedisplacementmap", "feDisplacementMap"),
     ("fedistantlight", "feDistantLight"), ("feflood", "feFlood"),
     ("fefunca", "feFuncA"), ("fefuncb", "feFuncB"), ("fefuncg", "feFuncG"),
     ("fefuncr", "feFuncR"), ("fegaussianblur", "feGaussianBlur"),
     ("feimage", "feImage"), ("femerge", "feMerge"), ("femergenode", "feMergeNode"),
     ("femorphology", "feMorphology"), ("feoffset", "feOffset"),
     ("fepointlight", "fePointLight"), ("fespecularlighting", "feSpecularLighting"),
     ("fespotlight", "feSpotLight"), ("fetile", "feTile"),
     ("feturbulence", "feTurbulence"), ("foreignobject", "foreignObject"),
     ("glyphref", "glyphRef"), ("lineargradient", "linearGradient"),
     ("radialgradient", "radialGradient"), ("textpath", "textPath")] :
    List (String × String)).lookup k).getD ""

/-- Modelled from the spec: the MathML attribute rename table (spec 4.5). -/
def mathMLAttributeAdjustments (k : String) : Option String :=
  if k = "definitionurl" then some "definitionURL" else none

/-- Modelled from the spec: the SVG attribute rename table (spec 4.5). -/
def svgAttributeAdjustments (k : String) : Option String :=
  ([("attributename", "attributeName"), ("attributetype", "attributeType"),
    ("basefrequency", "baseFrequency"), ("baseprofile", "baseProfile"),
    ("calcmode", "calcMode"), ("clippathunits", "clipPathUnits"),
    ("contentscripttype", "contentScriptType"), ("contentstyletype", "contentStyleType"),
    ("diffuseconstant", "diffuseConstant"), ("edgemode", "edgeMode"),
    ("externalresourcesrequired", "externalResourcesRequired"),
    ("filterunits", "filterUnits"), ("glyphref", "glyphRef"),
    ("gradienttransform", "gradientTransform"), ("gradientunits", "gradientUnits"),
    ("kernelmatrix", "kernelMatrix"), ("kernelunitlength", "kernelUnitLength"),
    ("keypoints", "keyPoints"), ("keysplines", "keySplines"), ("keytimes", "keyTimes"),
    ("lengthadjust", "lengthAdjust"), ("limitingconeangle", "limitingConeAngle"),
    ("markerheight", "markerHeight"), ("markerunits", "markerUnits"),
    ("markerwidth", "markerWidth"), ("maskcontentunits", "maskContentUnits"),
    ("maskunits", "maskUnits"), ("numoctaves", "numOctaves"),
    ("pathlength", "pathLength"), ("patterncontentunits", "patternContentUnits"),
    ("patterntransform", "patternTransform"), ("patternunits", "patternUnits"),
    ("pointsatx", "pointsAtX"), ("pointsaty", "pointsAtY"), ("pointsatz", "pointsAtZ"),
    ("preservealpha", "preserveAlpha"), ("preserveaspectratio", "preserveAspectRatio"),
    ("primitiveunits", "primitiveUnits"), ("refx", "refX"), ("refy", "refY"),
    ("repeatcount", "repeatCount"), ("repeatdur", "repeatDur"),
    ("requiredextensions", "requiredExtensions"), ("requiredfeatures", "requiredFeatures"),
    ("specularconstant", "specularConstant"), ("specularexponent", "specularExponent"),
    ("spreadmethod", "spreadMethod"), ("startoffset", "startOffset"),
    ("stddeviation", "stdDeviation"), ("stitchtiles", "stitchTiles"),
    ("surfacescale", "surfaceScale"), ("systemlanguage", "systemLanguage"),
    ("tablevalues", "tableValues"), ("targetx", "targetX"), ("targety", "targetY"),
    ("textlength", "textLength"), ("viewbox", "viewBox"), ("viewtarget", "viewTarget"),
    ("xchannelselector", "xChannelSelector"), ("ychannelselector", "yChannelSelector"),
    ("zoomandpan", "zoomAndPan")] : List (String × String)).lookup k

/-- adjustAttributeNames applies a rename table to attribute keys. -/
def adjustAttributeNames (attr : List Attribute) (adjustments : String → Option String) :
    List Attribute :=
  attr.map (fun a => match adjustments a.key with
    | some newKey => {a with key := newKey}
    | none => a)

/-- Modelled from the spec: adjustForeignAttributes splits xlink, xml and xmlns
attribute keys at the colon into a namespace part and a local key (spec 4.5). -/
def adjustForeignAttributes (attr : List Attribute) : List Attribute :=
  attr.map (fun a =>
    if ["xlink:actuate", "xlink:arcrole", "xlink:href", "xlink:role", "xlink:show",
        "xlink:title", "xlink:type", "xml:base", "xml:lang", "xml:space",
        "xmlns:xlink"].contains a.key then
      let parts := a.key.splitOn ":"
      {a with ns := parts.getD 0 "", key := parts.getD 1 ""}
    else a)

/-- Modelled from the spec: parseDoctype yields a Doctype node whose payload is
the doctype name, and reports quirks mode (names other than html imply quirks;
this suffices for the claims, none of which concern doctype parsing). -/
def parseDoctype (s : String) : Node × Bool :=
  let name := lowerStr (String.mk (s.toList.takeWhile (fun c => ¬ whitespace.contains c)))
  ({type := .DoctypeNode, data := name}, name ≠ "html")

/-- parser.inForeignContent (section 12.2.5): whether the next token is to be
processed by the foreign-content rules. -/
def inForeignContent (p : Parser) : Bool :=
  match p.oe.getLast? with
  | none => false
  | some nIdx =>
    let n := getNode p nIdx
    if n.ns == "" then false
    else if mathMLTextIntegrationPoint n &&
      ((p.tok.type == .StartTag && p.tok.data != "mglyph" && p.tok.data != "malignmark") ||
       p.tok.type == .Text) then false
    else if n.ns == "math" && n.data == "annotation-xml" && p.tok.type == .StartTag &&
      p.tok.data == "svg" then false
    else if htmlIntegrationPoint n && (p.tok.type == .StartTag || p.tok.type == .Text) then
      false
    else if p.tok.type == .Error then false
    else true

/-- The end-tag walk of parseForeignContent: scan the open-elements stack from
the top; none means an HTML-namespace element was hit first (control goes back
to the current insertion mode); some gives the new stack, truncated at the
case-insensitively matching element when one is found. -/
def foreignEndTagLoopAux (p : Parser) : Nat → Option (List Nat)
  | 0 => some p.oe
  | i + 1 =>
    let nd := getNode p (p.oe.getD i 0)
    if nd.ns == "" then none
    else if equalFold nd.data p.tok.data then some (p.oe.take i)
    else foreignEndTagLoopAux p i

/-- The breakout pop of parseForeignContent: pop open elements until an
HTML-namespace element or an integration point is on top. -/
def foreignBreakoutPop (p : Parser) : Nat → List Nat
  | 0 => p.oe
  | i + 1 =>
    let n := getNode p (p.oe.getD i 0)
    if n.ns == "" || htmlIntegrationPoint n || mathMLTextIntegrationPoint n then
      p.oe.take (i + 1)
    else foreignBreakoutPop p i

/-- The AFE scan of the inBodyIM a start tag: find an a element between the end
of the AFE list and the last scope marker. -/
def inBodyAScanAux (p : Parser) : Nat → Option Nat
  | 0 => none
  | i + 1 =>
    let nIdx := p.afe.getD i 0
    let n := getNode p nIdx
    if n.type == .scopeMarkerNode then none
    else if n.type == .ElementNode && n.data == "a" then some nIdx
    else inBodyAScanAux p i

/-- The stack walk shared by the li and dd/dt start tags of inBodyIM. -/
def inBodyLiAux (p : Parser) (tags : List String) : Nat → List Nat
  | 0 => p.oe
  | i + 1 =>
    let node := getNode p (p.oe.getD i 0)
    if tags.contains node.data then p.oe.take i
    else if ["address", "div", "p"].contains node.data then inBodyLiAux p tags i
    else if isSpecialElement node then p.oe
    else inBodyLiAux p tags i

/-- The attribute fold of the isindex start tag of inBodyIM, building the
action, prompt and attribute list of the synthesised form scaffold. -/
def isindexFold (attrs : List Attribute) : String × String × List Attribute :=
  attrs.foldl (fun (acc : String × String × List Attribute) a =>
    let (action, prompt, attr) := acc
    if a.key = "action" then (a.val, prompt, attr)
    else if a.key = "name" then acc
    else if a.key = "prompt" then (action, a.val, attr)
    else (action, prompt, attr ++ [a]))
    ("", "This is a searchable index. Enter search keywords: ",
     [{key := "name", val := "isindex"}])

/-- parser.acknowledgeSelfClosingTag (section 12.2.4). -/
def acknowledgeSelfClosingTag (p : Parser) : Parser :=
  {p with hasSelfClosingToken := false}

/-- The recursive knot of the state machine: the driver hands each handler the
ability to dispatch an insertion mode (a Go insertion-mode function call) and
to process an implied token.  Fuel bounds the recursion depth; real parses use
a small depth. -/
structure Dispatch where
  runIM : IM → Parser → Except String (Bool × Parser)
  parseImpliedToken : TokType → String → List Attribute → Parser → Except String Parser

/-- initialIM, section 12.2.5.4.1. -/
def initialIM (d : Dispatch) (p : Parser) : Except String (Bool × Parser) := do
  let _ := d
  let fallthru : Parser → Except String (Bool × Parser) := fun p =>
    Except.ok (false, {p with quirks := true, im := .beforeHTML})
  match p.tok.type with
  | .Text =>
    let p := {p with tok := {p.tok with data := trimLeftStr p.tok.data whitespace}}
    if p.tok.data.length = 0 then Except.ok (true, p)
    else fallthru p
  | .Comment =>
    let (p, n) := newNode p {type := .CommentNode, data := p.tok.data}
    Except.ok (true, nodeAdd p p.doc n)
  | .Doctype =>
    let (nd, quirks) := parseDoctype p.tok.data
    let (p, n) := newNode p nd
    let p := nodeAdd p p.doc n
    Except.ok (true, {p with quirks := quirks, im := .beforeHTML})
  | _ => fallthru p

/-- beforeHTMLIM, section 12.2.5.4.2. -/
def beforeHTMLIM (d : Dispatch) (p : Parser) : Except String (Bool × Parser) := do
  let fallthru : Parser → Except String (Bool × Parser) := fun p => do
    let p ← d.parseImpliedToken .StartTag "html" [] p
    Except.ok (false, p)
  match p.tok.type with
  | .Doctype => Except.ok (true, p)
  | .Text =>
    let p := {p with tok := {p.tok with data := trimLeftStr p.tok.data whitespace}}
    if p.tok.data.length = 0 then Except.ok (true, p)
    else fallthru p
  | .StartTag =>
    if p.tok.data = "html" then do
      let p ← addElement p p.tok.data p.tok.attr
      Except.ok (true, {p with im := .beforeHead})
    else fallthru p
  | .EndTag =>
    if ["head", "body", "html", "br"].contains p.tok.data then fallthru p
    else Except.ok (true, p)
  | .Comment =>
    let (p, n) := newNode p {type := .CommentNode, data := p.tok.data}
    Except.ok (true, nodeAdd p p.doc n)
  | _ => fallthru p

/-- beforeHeadIM, section 12.2.5.4.3. -/
def beforeHeadIM (d : Dispatch) (p : Parser) : Except String (Bool × Parser) := do
  let fallthru : Parser → Except String (Bool × Parser) := fun p => do
    let p ← d.parseImpliedToken .StartTag "head" [] p
    Except.ok (false, p)
  match p.tok.type with
  | .Text =>
    let p := {p with tok := {p.tok with data := trimLeftStr p.tok.data whitespace}}
    if p.tok.data.length = 0 then Except.ok (true, p)
    else fallthru p
  | .StartTag =>
    if p.tok.data = "head" then do
      let p ← addElement p p.tok.data p.tok.attr
      Except.ok (true, {p with head := some (topIdx p), im := .inHead})
    else if p.tok.data = "html" then d.runIM .inBody p
    else fallthru p
  | .EndTag =>
    if ["head", "body", "html", "br"].contains p.tok.data then fallthru p
    else Except.ok (true, p)
  | .Comment => do
    let (p, n) := newNode p {type := .CommentNode, data := p.tok.data}
    let p ← addChild p n
    Except.ok (true, p)
  | .Doctype => Except.ok (true, p)
  | _ => fallthru p

/-- inHeadIM, section 12.2.5.4.4. -/
def inHeadIM (d : Dispatch) (p : Parser) : Except String (Bool × Parser) := do
  let fallthru : Parser → Except String (Bool × Parser) := fun p => do
    let p ← d.parseImpliedToken .EndTag "head" [] p
    Except.ok (false, p)
  match p.tok.type with
  | .Text =>
    let s := trimLeftStr p.tok.data whitespace
    if s.length < p.tok.data.length then do
      let p ← addText p (String.mk (p.tok.data.toList.take (p.tok.data.length - s.length)))
      if s = "" then Except.ok (true, p)
      else fallthru {p with tok := {p.tok with data := s}}
    else fallthru p
  | .StartTag =>
    match p.tok.data with
    | "html" => d.runIM .inBody p
    | "base" | "basefont" | "bgsound" | "command" | "link" | "meta" => do
      let p ← addElement p p.tok.data p.tok.attr
      let (_, oe') ← stackPop p.oe
      Except.ok (true, acknowledgeSelfClosingTag {p with oe := oe'})
    | "script" | "title" | "noscript" | "noframes" | "style" => do
      let p ← addElement p p.tok.data p.tok.attr
      let p ← setOriginalIM p
      Except.ok (true, {p with im := .text})
    | "head" => Except.ok (true, p)
    | _ => fallthru p
  | .EndTag =>
    match p.tok.data with
    | "head" => do
      let (n, oe') ← stackPop p.oe
      if (getNode p n).data ≠ "head" then
        Except.error "html: bad parser state: head element not found, in the in-head insertion mode"
      else Except.ok (true, {p with oe := oe', im := .afterHead})
    | "body" | "html" | "br" => fallthru p
    | _ => Except.ok (true, p)
  | .Comment => do
    let (p, n) := newNode p {type := .CommentNode, data := p.tok.data}
    let p ← addChild p n
    Except.ok (true, p)
  | .Doctype => Except.ok (true, p)
  | _ => fallthru p

/-- afterHeadIM, section 12.2.5.4.6. -/
def afterHeadIM (d : Dispatch) (p : Parser) : Except String (Bool × Parser) := do
  let fallthru : Parser → Except String (Bool × Parser) := fun p => do
    let p ← d.parseImpliedToken .StartTag "body" [] p
    Except.ok (false, {p with framesetOK := true})
  match p.tok.type with
  | .Text =>
    let s := trimLeftStr p.tok.data whitespace
    if s.length < p.tok.data.length then do
      let p ← addText p (String.mk (p.tok.data.toList.take (p.tok.data.length - s.length)))
      if s = "" then Except.ok (true, p)
      else fallthru {p with tok := {p.tok with data := s}}
    else fallthru p
  | .StartTag =>
    match p.tok.data with
    | "html" => d.runIM .inBody p
    | "body" => do
      let p ← addElement p p.tok.data p.tok.attr
      Except.ok (true, {p with framesetOK := false, im := .inBody})
    | "frameset" => do
      let p ← addElement p p.tok.data p.tok.attr
      Except.ok (true, {p with im := .inFrameset})
    | "base" | "basefont" | "bgsound" | "link" | "meta" | "noframes" | "script"
    | "style" | "title" => do
      match p.head with
      | some h =>
        let p := {p with oe := p.oe ++ [h]}
        let (c, p) ← d.runIM .inHead p
        let (_, oe') ← stackPop p.oe
        Except.ok (c, {p with oe := oe'})
      | none => Except.error "nil pointer dereference"
    | "head" => Except.ok (true, p)
    | _ => fallthru p
  | .EndTag =>
    if ["body", "html", "br"].contains p.tok.data then fallthru p
    else Except.ok (true, p)
  | .Comment => do
    let (p, n) := newNode p {type := .CommentNode, data := p.tok.data}
    let p ← addChild p n
    Except.ok (true, p)
  | .Doctype => Except.ok (true, p)
  | _ => fallthru p

/-- inBodyIM, section 12.2.5.4.7. -/
def inBodyIM (d : Dispatch) (p : Parser) : Except String (Bool × Parser) := do
  match p.tok.type with
  | .Text => do
    let d0 := p.tok.data
    match p.oe.getLast? with
    | none => Except.error "nil pointer dereference"
    | some topN =>
      let n := getNode p topN
      let d1 :=
        if (n.data = "pre" ∨ n.data = "listing") ∧ n.child = [] then
          let da := if d0.toList.head? = some '\r' then String.mk d0.toList.tail else d0
          if da.toList.head? = some '\n' then String.mk da.toList.tail else da
        else d0
      let d2 := removeNul d1
      if d2 = "" then Except.ok (true, p)
      else do
        let p ← reconstructActiveFormattingElements p
        let p ← addText p d2
        Except.ok (true, {p with framesetOK := false})
  | .StartTag =>
    match p.tok.data with
    | "html" => do
      let r ← listGetI p.oe 0
      Except.ok (true, copyAttributes p r p.tok)
    | "base" | "basefont" | "bgsound" | "command" | "link" | "meta" | "noframes"
    | "script" | "style" | "title" => d.runIM .inHead p
    | "body" =>
      if p.oe.length ≥ 2 then
        let body := p.oe.getD 1 0
        if (getNode p body).type == .ElementNode && (getNode p body).data == "body" then
          Except.ok (true, copyAttributes {p with framesetOK := false} body p.tok)
        else Except.ok (true, p)
      else Except.ok (true, p)
    | "frameset" => do
      if !p.framesetOK ∨ p.oe.length < 2 ∨ (getNode p (p.oe.getD 1 0)).data ≠ "body" then
        Except.ok (true, p)
      else do
        let body := p.oe.getD 1 0
        let p := match (getNode p body).parent with
          | some par => nodeRemove p par body
          | none => p
        let p := {p with oe := p.oe.take 1}
        let p ← addElement p p.tok.data p.tok.attr
        Except.ok (true, {p with im := .inFrameset})
    | "address" | "article" | "aside" | "blockquote" | "center" | "details" | "dir"
    | "div" | "dl" | "fieldset" | "figcaption" | "figure" | "footer" | "header"
    | "hgroup" | "menu" | "nav" | "ol" | "p" | "section" | "summary" | "ul" => do
      let (_, p) ← popUntil p .buttonScope ["p"]
      let p ← addElement p p.tok.data p.tok.attr
      Except.ok (true, p)
    | "h1" | "h2" | "h3" | "h4" | "h5" | "h6" => do
      let (_, p) ← popUntil p .buttonScope ["p"]
      let p ← (if ["h1", "h2", "h3", "h4", "h5", "h6"].contains
                   (getNode p (topIdx p)).data then do
          let (_, oe') ← stackPop p.oe
          Except.ok {p with oe := oe'}
        else Except.ok p)
      let p ← addElement p p.tok.data p.tok.attr
      Except.ok (true, p)
    | "pre" | "listing" => do
      let (_, p) ← popUntil p .buttonScope ["p"]
      let p ← addElement p p.tok.data p.tok.attr
      Except.ok (true, {p with framesetOK := false})
    | "form" =>
      if p.form = none then do
        let (_, p) ← popUntil p .buttonScope ["p"]
        let p ← addElement p p.tok.data p.tok.attr
        Except.ok (true, {p with form := some (topIdx p)})
      else Except.ok (true, p)
    | "li" => do
      let p := {p with framesetOK := false}
      let p := {p with oe := inBodyLiAux p ["li"] p.oe.length}
      let (_, p) ← popUntil p .buttonScope ["p"]
      let p ← addElement p p.tok.data p.tok.attr
      Except.ok (true, p)
    | "dd" | "dt" => do
      let p := {p with framesetOK := false}
      let p := {p with oe := inBodyLiAux p ["dd", "dt"] p.oe.length}
      let (_, p) ← popUntil p .buttonScope ["p"]
      let p ← addElement p p.tok.data p.tok.attr
      Except.ok (true, p)
    | "plaintext" => do
      let (_, p) ← popUntil p .buttonScope ["p"]
      let p ← addElement p p.tok.data p.tok.attr
      Except.ok (true, p)
    | "button" => do
      let (_, p) ← popUntil p .defaultScope ["button"]
      let p ← reconstructActiveFormattingElements p
      let p ← addElement p p.tok.data p.tok.attr
      Except.ok (true, {p with framesetOK := false})
    | "a" => do
      let p ← (match inBodyAScanAux p p.afe.length with
        | some n => do
          let p ← inBodyEndTagFormatting p "a"
          Except.ok {p with oe := stackRemove p.oe n, afe := stackRemove p.afe n}
        | none => Except.ok p)
      let p ← reconstructActiveFormattingElements p
      let p ← addFormattingElement p p.tok.data p.tok.attr
      Except.ok (true, p)
    | "b" | "big" | "code" | "em" | "font" | "i" | "s" | "small" | "strike"
    | "strong" | "tt" | "u" => do
      let p ← reconstructActiveFormattingElements p
      let p ← addFormattingElement p p.tok.data p.tok.attr
      Except.ok (true, p)
    | "nobr" => do
      let p ← reconstructActiveFormattingElements p
      let p ← (if (← elementInScope p .defaultScope ["nobr"]) then do
          let p ← inBodyEndTagFormatting p "nobr"
          reconstructActiveFormattingElements p
        else Except.ok p)
      let p ← addFormattingElement p p.tok.data p.tok.attr
      Except.ok (true, p)
    | "applet" | "marquee" | "object" => do
      let p ← reconstructActiveFormattingElements p
      let p ← addElement p p.tok.data p.tok.attr
      Except.ok (true, {p with afe := p.afe ++ [scopeMarkerIdx], framesetOK := false})
    | "table" => do
      let p ← (if !p.quirks then do
          let (_, p) ← popUntil p .buttonScope ["p"]
          Except.ok p
        else Except.ok p)
      let p ← addElement p p.tok.data p.tok.attr
      Except.ok (true, {p with framesetOK := false, im := .inTable})
    | "area" | "br" | "embed" | "img" | "input" | "keygen" | "wbr" => do
      let p ← reconstructActiveFormattingElements p
      let p ← addElement p p.tok.data p.tok.attr
      let (_, oe') ← stackPop p.oe
      let p := acknowledgeSelfClosingTag {p with oe := oe'}
      if p.tok.data = "input" ∧
         p.tok.attr.any (fun a => a.key == "type" && lowerStr a.val == "hidden") then
        Except.ok (true, p)
      else
        Except.ok (true, {p with framesetOK := false})
    | "param" | "source" | "track" => do
      let p ← addElement p p.tok.data p.tok.attr
      let (_, oe') ← stackPop p.oe
      Except.ok (true, acknowledgeSelfClosingTag {p with oe := oe'})
    | "hr" => do
      let (_, p) ← popUntil p .buttonScope ["p"]
      let p ← addElement p p.tok.data p.tok.attr
      let (_, oe') ← stackPop p.oe
      let p := acknowledgeSelfClosingTag {p with oe := oe'}
      Except.ok (true, {p with framesetOK := false})
    | "image" =>
      Except.ok (false, {p with tok := {p.tok with data := "img"}})
    | "isindex" => do
      if p.form.isSome then Except.ok (true, p)
      else do
        let (action, prompt, attr) := isindexFold p.tok.attr
        let p := acknowledgeSelfClosingTag p
        let (_, p) ← popUntil p .buttonScope ["p"]
        let p ← addElement p "form" []
        let f := topIdx p
        let p := {p with form := some f}
        let p := if action ≠ "" then
            modifyNode p f (fun nd => {nd with attr := [{key := "action", val := action}]})
          else p
        let p ← addElement p "hr" []
        let (_, oe1) ← stackPop p.oe
        let p := {p with oe := oe1}
        let p ← addElement p "label" []
        let p ← addText p prompt
        let p ← addElement p "input" attr
        let (_, oe2) ← stackPop p.oe
        let p := {p with oe := oe2}
        let (_, oe3) ← stackPop p.oe
        let p := {p with oe := oe3}
        let p ← addElement p "hr" []
        let (_, oe4) ← stackPop p.oe
        let p := {p with oe := oe4}
        let (_, oe5) ← stackPop p.oe
        let p := {p with oe := oe5}
        Except.ok (true, {p with form := none})
    | "textarea" => do
      let p ← addElement p p.tok.data p.tok.attr
      let p ← setOriginalIM p
      Except.ok (true, {p with framesetOK := false, im := .text})
    | "xmp" => do
      let (_, p) ← popUntil p .buttonScope ["p"]
      let p ← reconstructActiveFormattingElements p
      let p := {p with framesetOK := false}
      let p ← addElement p p.tok.data p.tok.attr
      let p ← setOriginalIM p
      Except.ok (true, {p with im := .text})
    | "iframe" => do
      let p := {p with framesetOK := false}
      let p ← addElement p p.tok.data p.tok.attr
      let p ← setOriginalIM p
      Except.ok (true, {p with im := .text})
    | "noembed" | "noscript" => do
      let p ← addElement p p.tok.data p.tok.attr
      let p ← setOriginalIM p
      Except.ok (true, {p with im := .text})
    | "select" => do
      let p ← reconstructActiveFormattingElements p
      let p ← addElement p p.tok.data p.tok.attr
      Except.ok (true, {p with framesetOK := false, im := .inSelect})
    | "optgroup" | "option" => do
      let p ← (if (getNode p (topIdx p)).data = "option" then do
          let (_, oe') ← stackPop p.oe
          Except.ok {p with oe := oe'}
        else Except.ok p)
      let p ← reconstructActiveFormattingElements p
      let p ← addElement p p.tok.data p.tok.attr
      Except.ok (true, p)
    | "rp" | "rt" => do
      let p ← (if (← elementInScope p .defaultScope ["ruby"]) then
          Except.ok (generateImpliedEndTags p [])
        else Except.ok p)
      let p ← addElement p p.tok.data p.tok.attr
      Except.ok (true, p)
    | "math" | "svg" => do
      let p ← reconstructActiveFormattingElements p
      let attr := if p.tok.data = "math" then
          adjustAttributeNames p.tok.attr mathMLAttributeAdjustments
        else
          adjustAttributeNames p.tok.attr svgAttributeAdjustments
      let attr := adjustForeignAttributes attr
      let p := {p with tok := {p.tok with attr := attr}}
      let p ← addElement p p.tok.data p.tok.attr
      let p := modifyNode p (topIdx p) (fun nd => {nd with ns := p.tok.data})
      Except.ok (true, p)
    | "caption" | "col" | "colgroup" | "frame" | "head" | "tbody" | "td" | "tfoot"
    | "th" | "thead" | "tr" =>
      Except.ok (true, p)
    | _ => do
      let p ← reconstructActiveFormattingElements p
      let p ← addElement p p.tok.data p.tok.attr
      Except.ok (true, p)
  | .EndTag =>
    match p.tok.data with
    | "body" => do
      if (← elementInScope p .defaultScope ["body"]) then
        Except.ok (true, {p with im := .afterBody})
      else Except.ok (true, p)
    | "html" => do
      if (← elementInScope p .defaultScope ["body"]) then do
        let p ← d.parseImpliedToken .EndTag "body" [] p
        Except.ok (false, p)
      else Except.ok (true, p)
    | "address" | "article" | "aside" | "blockquote" | "button" | "center" | "details"
    | "dir" | "div" | "dl" | "fieldset" | "figcaption" | "figure" | "footer"
    | "header" | "hgroup" | "listing" | "menu" | "nav" | "ol" | "pre" | "section"
    | "summary" | "ul" => do
      let (_, p) ← popUntil p .defaultScope [p.tok.data]
      Except.ok (true, p)
    | "form" => do
      let node := p.form
      let p := {p with form := none}
      let i ← indexOfElementInScope p .defaultScope ["form"]
      match node, i with
      | some nd, some idx =>
        if p.oe.getD idx 0 ≠ nd then Except.ok (true, p)
        else
          let p := generateImpliedEndTags p []
          Except.ok (true, {p with oe := stackRemove p.oe nd})
      | _, _ => Except.ok (true, p)
    | "p" => do
      let p ← (if !(← elementInScope p .buttonScope ["p"]) then addElement p "p" []
               else Except.ok p)
      let (_, p) ← popUntil p .buttonScope ["p"]
      Except.ok (true, p)
    | "li" => do
      let (_, p) ← popUntil p .listItemScope ["li"]
      Except.ok (true, p)
    | "dd" | "dt" => do
      let (_, p) ← popUntil p .defaultScope [p.tok.data]
      Except.ok (true, p)
    | "h1" | "h2" | "h3" | "h4" | "h5" | "h6" => do
      let (_, p) ← popUntil p .defaultScope ["h1", "h2", "h3", "h4", "h5", "h6"]
      Except.ok (true, p)
    | "a" | "b" | "big" | "code" | "em" | "font" | "i" | "nobr" | "s" | "small"
    | "strike" | "strong" | "tt" | "u" => do
      let p ← inBodyEndTagFormatting p p.tok.data
      Except.ok (true, p)
    | "applet" | "marquee" | "object" => do
      let (m, p) ← popUntil p .defaultScope [p.tok.data]
      if m then do
        let p ← clearActiveFormattingElements p
        Except.ok (true, p)
      else Except.ok (true, p)
    | "br" =>
      Except.ok (false, {p with tok := {p.tok with type := .StartTag}})
    | _ =>
      Except.ok (true, inBodyEndTagOther p p.tok.data)
  | .Comment => do
    let (p, n) := newNode p {type := .CommentNode, data := p.tok.data}
    let p ← addChild p n
    Except.ok (true, p)
  | _ => Except.ok (true, p)

/-- textIM, section 12.2.5.4.8. -/
def textIM (d : Dispatch) (p : Parser) : Except String (Bool × Parser) := do
  let _ := d
  let finish : Parser → Except String (Bool × Parser) := fun p =>
    match p.originalIM with
    | some m => Except.ok (p.tok.type == .EndTag, {p with im := m, originalIM := none})
    | none => Except.error "nil insertion mode"
  match p.tok.type with
  | .Error => do
    let (_, oe') ← stackPop p.oe
    finish {p with oe := oe'}
  | .Text => do
    let d0 := p.tok.data
    match p.oe.getLast? with
    | none => Except.error "nil pointer dereference"
    | some topN =>
      let n := getNode p topN
      let d1 :=
        if n.data = "textarea" ∧ n.child = [] then
          let da := if d0.toList.head? = some '\r' then String.mk d0.toList.tail else d0
          if da.toList.head? = some '\n' then String.mk da.toList.tail else da
        else d0
      if d1 = "" then Except.ok (true, p)
      else do
        let p ← addText p d1
        Except.ok (true, p)
  | .EndTag => do
    let (_, oe') ← stackPop p.oe
    finish {p with oe := oe'}
  | _ => finish p

/-- inTableIM, section 12.2.5.4.9. -/
def inTableIM (d : Dispatch) (p : Parser) : Except String (Bool × Parser) := do
  let fallthru : Parser → Except String (Bool × Parser) := fun p => do
    if ["table", "tbody", "tfoot", "thead", "tr"].contains (getNode p (topIdx p)).data then do
      let (c, p') ← d.runIM .inBody {p with fosterParenting := true}
      Except.ok (c, {p' with fosterParenting := false})
    else d.runIM .inBody p
  match p.tok.type with
  | .Error => Except.ok (true, p)
  | .Text => do
    let p := {p with tok := {p.tok with data := removeNul p.tok.data}}
    match p.oe.getLast? with
    | none => Except.error "nil pointer dereference"
    | some t =>
      if ["table", "tbody", "tfoot", "thead", "tr"].contains (getNode p t).data ∧
         trimStr p.tok.data whitespace = "" then do
        let p ← addText p p.tok.data
        Except.ok (true, p)
      else fallthru p
  | .StartTag =>
    match p.tok.data with
    | "caption" => do
      let p ← clearStackToContext p .tableScope
      let p := {p with afe := p.afe ++ [scopeMarkerIdx]}
      let p ← addElement p p.tok.data p.tok.attr
      Except.ok (true, {p with im := .inCaption})
    | "colgroup" => do
      let p ← clearStackToContext p .tableScope
      let p ← addElement p p.tok.data p.tok.attr
      Except.ok (true, {p with im := .inColumnGroup})
    | "col" => do
      let p ← d.parseImpliedToken .StartTag "colgroup" [] p
      Except.ok (false, p)
    | "tbody" | "tfoot" | "thead" => do
      let p ← clearStackToContext p .tableScope
      let p ← addElement p p.tok.data p.tok.attr
      Except.ok (true, {p with im := .inTableBody})
    | "td" | "th" | "tr" => do
      let p ← d.parseImpliedToken .StartTag "tbody" [] p
      Except.ok (false, p)
    | "table" => do
      let (m, p) ← popUntil p .tableScope ["table"]
      if m then Except.ok (false, resetInsertionMode p)
      else Except.ok (true, p)
    | "style" | "script" => d.runIM .inHead p
    | "input" =>
      if p.tok.attr.any (fun a => a.key == "type" && lowerStr a.val == "hidden") then do
        let p ← addElement p p.tok.data p.tok.attr
        let (_, oe') ← stackPop p.oe
        Except.ok (true, {p with oe := oe'})
      else fallthru p
    | "form" =>
      if p.form.isSome then Except.ok (true, p)
      else do
        let p ← addElement p p.tok.data p.tok.attr
        let (f, oe') ← stackPop p.oe
        Except.ok (true, {p with oe := oe', form := some f})
    | "select" => do
      let p ← reconstructActiveFormattingElements p
      let p := if ["table", "tbody", "tfoot", "thead", "tr"].contains
                   (getNode p (topIdx p)).data then
          {p with fosterParenting := true}
        else p
      let p ← addElement p p.tok.data p.tok.attr
      Except.ok (true, {p with fosterParenting := false, framesetOK := false,
                               im := .inSelectInTable})
    | _ => fallthru p
  | .EndTag =>
    match p.tok.data with
    | "table" => do
      let (m, p) ← popUntil p .tableScope ["table"]
      if m then Except.ok (true, resetInsertionMode p)
      else Except.ok (true, p)
    | "body" | "caption" | "col" | "colgroup" | "html" | "tbody" | "td" | "tfoot"
    | "th" | "thead" | "tr" =>
      Except.ok (true, p)
    | _ => fallthru p
  | .Comment => do
    let (p, n) := newNode p {type := .CommentNode, data := p.tok.data}
    let p ← addChild p n
    Except.ok (true, p)
  | .Doctype => Except.ok (true, p)
  | .SelfClosingTag => fallthru p

/-- inCaptionIM, section 12.2.5.4.11. -/
def inCaptionIM (d : Dispatch) (p : Parser) : Except String (Bool × Parser) := do
  match p.tok.type with
  | .StartTag =>
    match p.tok.data with
    | "caption" | "col" | "colgroup" | "tbody" | "td" | "tfoot" | "thead" | "tr" => do
      let (m, p) ← popUntil p .tableScope ["caption"]
      if m then do
        let p ← clearActiveFormattingElements p
        Except.ok (false, {p with im := .inTable})
      else Except.ok (true, p)
    | "select" => do
      let p ← reconstructActiveFormattingElements p
      let p ← addElement p p.tok.data p.tok.attr
      Except.ok (true, {p with framesetOK := false, im := .inSelectInTable})
    | _ => d.runIM .inBody p
  | .EndTag =>
    match p.tok.data with
    | "caption" => do
      let (m, p) ← popUntil p .tableScope ["caption"]
      if m then do
        let p ← clearActiveFormattingElements p
        Except.ok (true, {p with im := .inTable})
      else Except.ok (true, p)
    | "table" => do
      let (m, p) ← popUntil p .tableScope ["caption"]
      if m then do
        let p ← clearActiveFormattingElements p
        Except.ok (false, {p with im := .inTable})
      else Except.ok (true, p)
    | "body" | "col" | "colgroup" | "html" | "tbody" | "td" | "tfoot" | "th"
    | "thead" | "tr" =>
      Except.ok (true, p)
    | _ => d.runIM .inBody p
  | _ => d.runIM .inBody p

/-- inColumnGroupIM, section 12.2.5.4.12. -/
def inColumnGroupIM (d : Dispatch) (p : Parser) : Except String (Bool × Parser) := do
  let fallthru : Parser → Except String (Bool × Parser) := fun p => do
    match p.oe.getLast? with
    | none => Except.error "nil pointer dereference"
    | some t =>
      if (getNode p t).data ≠ "html" then do
        let (_, oe') ← stackPop p.oe
        Except.ok (false, {p with oe := oe', im := .inTable})
      else Except.ok (true, p)
  match p.tok.type with
  | .Text =>
    let s := trimLeftStr p.tok.data whitespace
    if s.length < p.tok.data.length then do
      let p ← addText p (String.mk (p.tok.data.toList.take (p.tok.data.length - s.length)))
      if s = "" then Except.ok (true, p)
      else fallthru {p with tok := {p.tok with data := s}}
    else fallthru p
  | .Comment => do
    let (p, n) := newNode p {type := .CommentNode, data := p.tok.data}
    let p ← addChild p n
    Except.ok (true, p)
  | .Doctype => Except.ok (true, p)
  | .StartTag =>
    match p.tok.data with
    | "html" => d.runIM .inBody p
    | "col" => do
      let p ← addElement p p.tok.data p.tok.attr
      let (_, oe') ← stackPop p.oe
      Except.ok (true, acknowledgeSelfClosingTag {p with oe := oe'})
    | _ => fallthru p
  | .EndTag =>
    match p.tok.data with
    | "colgroup" => do
      match p.oe.getLast? with
      | none => Except.error "nil pointer dereference"
      | some t =>
        if (getNode p t).data ≠ "html" then do
          let (_, oe') ← stackPop p.oe
          Except.ok (true, {p with oe := oe', im := .inTable})
        else Except.ok (true, p)
    | "col" => Except.ok (true, p)
    | _ => fallthru p
  | _ => fallthru p

/-- inTableBodyIM, section 12.2.5.4.13. -/
def inTableBodyIM (d : Dispatch) (p : Parser) : Except String (Bool × Parser) := do
  match p.tok.type with
  | .StartTag =>
    match p.tok.data with
    | "tr" => do
      let p ← clearStackToContext p .tableBodyScope
      let p ← addElement p p.tok.data p.tok.attr
      Except.ok (true, {p with im := .inRow})
    | "td" | "th" => do
      let p ← d.parseImpliedToken .StartTag "tr" [] p
      Except.ok (false, p)
    | "caption" | "col" | "colgroup" | "tbody" | "tfoot" | "thead" => do
      let (m, p) ← popUntil p .tableScope ["tbody", "thead", "tfoot"]
      if m then Except.ok (false, {p with im := .inTable})
      else Except.ok (true, p)
    | _ => inTableIM d p
  | .EndTag =>
    match p.tok.data with
    | "tbody" | "tfoot" | "thead" => do
      if (← elementInScope p .tableScope [p.tok.data]) then do
        let p ← clearStackToContext p .tableBodyScope
        let (_, oe') ← stackPop p.oe
        Except.ok (true, {p with oe := oe', im := .inTable})
      else Except.ok (true, p)
    | "table" => do
      let (m, p) ← popUntil p .tableScope ["tbody", "thead", "tfoot"]
      if m then Except.ok (false, {p with im := .inTable})
      else Except.ok (true, p)
    | "body" | "caption" | "col" | "colgroup" | "html" | "td" | "th" | "tr" =>
      Except.ok (true, p)
    | _ => inTableIM d p
  | .Comment => do
    let (p, n) := newNode p {type := .CommentNode, data := p.tok.data}
    let p ← addChild p n
    Except.ok (true, p)
  | _ => inTableIM d p

/-- inRowIM, section 12.2.5.4.14. -/
def inRowIM (d : Dispatch) (p : Parser) : Except String (Bool × Parser) := do
  match p.tok.type with
  | .StartTag =>
    match p.tok.data with
    | "td" | "th" => do
      let p ← clearStackToContext p .tableRowScope
      let p ← addElement p p.tok.data p.tok.attr
      let p := {p with afe := p.afe ++ [scopeMarkerIdx]}
      Except.ok (true, {p with im := .inCell})
    | "caption" | "col" | "colgroup" | "tbody" | "tfoot" | "thead" | "tr" => do
      let (m, p) ← popUntil p .tableScope ["tr"]
      if m then Except.ok (false, {p with im := .inTableBody})
      else Except.ok (true, p)
    | _ => inTableIM d p
  | .EndTag =>
    match p.tok.data with
    | "tr" => do
      let (m, p) ← popUntil p .tableScope ["tr"]
      if m then Except.ok (true, {p with im := .inTableBody})
      else Except.ok (true, p)
    | "table" => do
      let (m, p) ← popUntil p .tableScope ["tr"]
      if m then Except.ok (false, {p with im := .inTableBody})
      else Except.ok (true, p)
    | "tbody" | "tfoot" | "thead" => do
      if (← elementInScope p .tableScope [p.tok.data]) then do
        let p ← d.parseImpliedToken .EndTag "tr" [] p
        Except.ok (false, p)
      else Except.ok (true, p)
    | "body" | "caption" | "col" | "colgroup" | "html" | "td" | "th" =>
      Except.ok (true, p)
    | _ => inTableIM d p
  | _ => inTableIM d p

/-- inCellIM, section 12.2.5.4.15. -/
def inCellIM (d : Dispatch) (p : Parser) : Except String (Bool × Parser) := do
  match p.tok.type with
  | .StartTag =>
    match p.tok.data with
    | "caption" | "col" | "colgroup" | "tbody" | "td" | "tfoot" | "th" | "thead"
    | "tr" => do
      let (m, p) ← popUntil p .tableScope ["td", "th"]
      if m then do
        let p ← clearActiveFormattingElements p
        Except.ok (false, {p with im := .inRow})
      else Except.ok (true, p)
    | "select" => do
      let p ← reconstructActiveFormattingElements p
      let p ← addElement p p.tok.data p.tok.attr
      Except.ok (true, {p with framesetOK := false, im := .inSelectInTable})
    | _ => d.runIM .inBody p
  | .EndTag =>
    match p.tok.data with
    | "td" | "th" => do
      let (m, p) ← popUntil p .tableScope [p.tok.data]
      if !m then Except.ok (true, p)
      else do
        let p ← clearActiveFormattingElements p
        Except.ok (true, {p with im := .inRow})
    | "body" | "caption" | "col" | "colgroup" | "html" =>
      Except.ok (true, p)
    | "table" | "tbody" | "tfoot" | "thead" | "tr" => do
      if !(← elementInScope p .tableScope [p.tok.data]) then Except.ok (true, p)
      else do
        let (_, p) ← popUntil p .tableScope ["td", "th"]
        let p ← clearActiveFormattingElements p
        Except.ok (false, {p with im := .inRow})
    | _ => d.runIM .inBody p
  | _ => d.runIM .inBody p

/-- inSelectIM, section 12.2.5.4.16. -/
def inSelectIM (d : Dispatch) (p : Parser) : Except String (Bool × Parser) := do
  match p.tok.type with
  | .Error => Except.ok (true, p)
  | .Text => do
    let p ← addText p (removeNul p.tok.data)
    Except.ok (true, p)
  | .StartTag =>
    match p.tok.data with
    | "html" => d.runIM .inBody p
    | "option" => do
      let p ← (if (getNode p (topIdx p)).data = "option" then do
          let (_, oe') ← stackPop p.oe
          Except.ok {p with oe := oe'}
        else Except.ok p)
      let p ← addElement p p.tok.data p.tok.attr
      Except.ok (true, p)
    | "optgroup" => do
      let p ← (if (getNode p (topIdx p)).data = "option" then do
          let (_, oe') ← stackPop p.oe
          Except.ok {p with oe := oe'}
        else Except.ok p)
      let p ← (if (getNode p (topIdx p)).data = "optgroup" then do
          let (_, oe') ← stackPop p.oe
          Except.ok {p with oe := oe'}
        else Except.ok p)
      let p ← addElement p p.tok.data p.tok.attr
      Except.ok (true, p)
    | "select" =>
      Except.ok (false, {p with tok := {p.tok with type := .EndTag}})
    | "input" | "keygen" | "textarea" => do
      if (← elementInScope p .selectScope ["select"]) then do
        let p ← d.parseImpliedToken .EndTag "select" [] p
        Except.ok (false, p)
      else Except.ok (true, p)
    | "script" => d.runIM .inHead p
    | _ => Except.ok (true, p)
  | .EndTag =>
    match p.tok.data with
    | "option" => do
      let p ← (if (getNode p (topIdx p)).data = "option" then do
          let (_, oe') ← stackPop p.oe
          Except.ok {p with oe := oe'}
        else Except.ok p)
      Except.ok (true, p)
    | "optgroup" => do
      let i : Int := (p.oe.length : Int) - 1
      let e1 ← listGetI p.oe i
      let i := if (getNode p e1).data = "option" then i - 1 else i
      let e2 ← listGetI p.oe i
      if (getNode p e2).data = "optgroup" then
        Except.ok (true, {p with oe := p.oe.take i.toNat})
      else Except.ok (true, p)
    | "select" => do
      let (m, p) ← popUntil p .selectScope ["select"]
      if m then Except.ok (true, resetInsertionMode p)
      else Except.ok (true, p)
    | _ => Except.ok (true, p)
  | .Comment =>
    let (p, n) := newNode p {type := .CommentNode, data := p.tok.data}
    Except.ok (true, nodeAdd p p.doc n)
  | .Doctype => Except.ok (true, p)
  | _ => Except.ok (true, p)

/-- inSelectInTableIM, section 12.2.5.4.17. -/
def inSelectInTableIM (d : Dispatch) (p : Parser) : Except String (Bool × Parser) := do
  match p.tok.type with
  | .StartTag | .EndTag =>
    if ["caption", "table", "tbody", "tfoot", "thead", "tr", "td", "th"].contains
         p.tok.data then do
      if p.tok.type == .StartTag || (← elementInScope p .tableScope [p.tok.data]) then do
        let p ← d.parseImpliedToken .EndTag "select" [] p
        Except.ok (false, p)
      else Except.ok (true, p)
    else inSelectIM d p
  | _ => inSelectIM d p

/-- afterBodyIM, section 12.2.5.4.18. -/
def afterBodyIM (d : Dispatch) (p : Parser) : Except String (Bool × Parser) := do
  let fallthru : Parser → Except String (Bool × Parser) := fun p =>
    Except.ok (false, {p with im := .inBody})
  match p.tok.type with
  | .Error => Except.ok (true, p)
  | .Text =>
    if (trimLeftStr p.tok.data whitespace).length = 0 then d.runIM .inBody p
    else fallthru p
  | .StartTag =>
    if p.tok.data = "html" then d.runIM .inBody p
    else fallthru p
  | .EndTag =>
    if p.tok.data = "html" then Except.ok (true, {p with im := .afterAfterBody})
    else fallthru p
  | .Comment => do
    if p.oe.length < 1 ∨ (getNode p (p.oe.getD 0 0)).data ≠ "html" then
      Except.error "html: bad parser state: html element not found, in the after-body insertion mode"
    else
      let (p, n) := newNode p {type := .CommentNode, data := p.tok.data}
      Except.ok (true, nodeAdd p (p.oe.getD 0 0) n)
  | _ => fallthru p

/-- inFramesetIM, section 12.2.5.4.19. -/
def inFramesetIM (d : Dispatch) (p : Parser) : Except String (Bool × Parser) := do
  match p.tok.type with
  | .Comment => do
    let (p, n) := newNode p {type := .CommentNode, data := p.tok.data}
    let p ← addChild p n
    Except.ok (true, p)
  | .Text => do
    let s := keepWhitespace p.tok.data
    if s ≠ "" then do
      let p ← addText p s
      Except.ok (true, p)
    else Except.ok (true, p)
  | .StartTag =>
    match p.tok.data with
    | "html" => d.runIM .inBody p
    | "frameset" => do
      let p ← addElement p p.tok.data p.tok.attr
      Except.ok (true, p)
    | "frame" => do
      let p ← addElement p p.tok.data p.tok.attr
      let (_, oe') ← stackPop p.oe
      Except.ok (true, acknowledgeSelfClosingTag {p with oe := oe'})
    | "noframes" => d.runIM .inHead p
    | _ => Except.ok (true, p)
  | .EndTag =>
    match p.tok.data with
    | "frameset" => do
      match p.oe.getLast? with
      | none => Except.error "nil pointer dereference"
      | some t =>
        if (getNode p t).data ≠ "html" then do
          let (_, oe') ← stackPop p.oe
          let p := {p with oe := oe'}
          match p.oe.getLast? with
          | none => Except.error "nil pointer dereference"
          | some t2 =>
            if (getNode p t2).data ≠ "frameset" then
              Except.ok (true, {p with im := .afterFrameset})
            else Except.ok (true, p)
        else Except.ok (true, p)
    | _ => Except.ok (true, p)
  | _ => Except.ok (true, p)

/-- afterFramesetIM, section 12.2.5.4.20. -/
def afterFramesetIM (d : Dispatch) (p : Parser) : Except String (Bool × Parser) := do
  match p.tok.type with
  | .Comment => do
    let (p, n) := newNode p {type := .CommentNode, data := p.tok.data}
    let p ← addChild p n
    Except.ok (true, p)
  | .Text => do
    let s := keepWhitespace p.tok.data
    if s ≠ "" then do
      let p ← addText p s
      Except.ok (true, p)
    else Except.ok (true, p)
  | .StartTag =>
    match p.tok.data with
    | "html" => d.runIM .inBody p
    | "noframes" => d.runIM .inHead p
    | _ => Except.ok (true, p)
  | .EndTag =>
    match p.tok.data with
    | "html" => Except.ok (true, {p with im := .afterAfterFrameset})
    | _ => Except.ok (true, p)
  | _ => Except.ok (true, p)

/-- afterAfterBodyIM, section 12.2.5.4.21. -/
def afterAfterBodyIM (d : Dispatch) (p : Parser) : Except String (Bool × Parser) := do
  let fallthru : Parser → Except String (Bool × Parser) := fun p =>
    Except.ok (false, {p with im := .inBody})
  match p.tok.type with
  | .Error => Except.ok (true, p)
  | .Text =>
    if (trimLeftStr p.tok.data whitespace).length = 0 then d.runIM .inBody p
    else fallthru p
  | .StartTag =>
    if p.tok.data = "html" then d.runIM .inBody p
    else fallthru p
  | .Comment =>
    let (p, n) := newNode p {type := .CommentNode, data := p.tok.data}
    Except.ok (true, nodeAdd p p.doc n)
  | .Doctype => d.runIM .inBody p
  | _ => fallthru p

/-- afterAfterFramesetIM, section 12.2.5.4.22. -/
def afterAfterFramesetIM (d : Dispatch) (p : Parser) : Except String (Bool × Parser) := do
  match p.tok.type with
  | .Comment =>
    let (p, n) := newNode p {type := .CommentNode, data := p.tok.data}
    Except.ok (true, nodeAdd p p.doc n)
  | .Text => do
    let s := keepWhitespace p.tok.data
    if s ≠ "" then do
      let p := {p with tok := {p.tok with data := s}}
      d.runIM .inBody p
    else Except.ok (true, p)
  | .StartTag =>
    match p.tok.data with
    | "html" => d.runIM .inBody p
    | "noframes" => d.runIM .inHead p
    | _ => Except.ok (true, p)
  | .Doctype => d.runIM .inBody p
  | _ => Except.ok (true, p)

/-- parseForeignContent, section 12.2.5.5. -/
def parseForeignContent (d : Dispatch) (p : Parser) : Except String (Bool × Parser) := do
  match p.tok.type with
  | .Text => do
    let p := {p with tok := {p.tok with data := removeNul p.tok.data}}
    let p := if p.framesetOK then
        {p with framesetOK := trimLeftStr p.tok.data whitespace == ""}
      else p
    let p ← addText p p.tok.data
    Except.ok (true, p)
  | .Comment => do
    let (p, n) := newNode p {type := .CommentNode, data := p.tok.data}
    let p ← addChild p n
    Except.ok (true, p)
  | .StartTag => do
    let b := breakout.contains p.tok.data ||
      (p.tok.data == "font" && p.tok.attr.any (fun a =>
        ["color", "face", "size"].contains a.key))
    if b then
      Except.ok (false, {p with oe := foreignBreakoutPop p p.oe.length})
    else do
      let p ← (match (getNode p (topIdx p)).ns with
        | "math" =>
          Except.ok {p with tok := {p.tok with
            attr := adjustAttributeNames p.tok.attr mathMLAttributeAdjustments}}
        | "svg" =>
          let adjusted := svgTagNameAdjustments p.tok.data
          let p := if adjusted ≠ "" then {p with tok := {p.tok with data := adjusted}} else p
          Except.ok {p with tok := {p.tok with
            attr := adjustAttributeNames p.tok.attr svgAttributeAdjustments}}
        | _ => Except.error "html: bad parser state: unexpected namespace")
      let p := {p with tok := {p.tok with attr := adjustForeignAttributes p.tok.attr}}
      let namespace0 := (getNode p (topIdx p)).ns
      let p ← addElement p p.tok.data p.tok.attr
      let p := modifyNode p (topIdx p) (fun nd => {nd with ns := namespace0})
      if p.hasSelfClosingToken then do
        let (_, oe') ← stackPop p.oe
        Except.ok (true, acknowledgeSelfClosingTag {p with oe := oe'})
      else Except.ok (true, p)
  | .EndTag =>
    match foreignEndTagLoopAux p p.oe.length with
    | none => d.runIM p.im p
    | some oe' => Except.ok (true, {p with oe := oe'})
  | _ => Except.ok (true, p)

/-- The not-consumed re-dispatch loop of parseCurrentToken, with fuel. -/
def parseTokenLoop (d : Dispatch) : Nat → Parser → Except String Parser
  | 0, _ => Except.error "out of fuel"
  | f + 1, p => do
    let (consumed, p) ← if inForeignContent p then parseForeignContent d p
                        else d.runIM p.im p
    if consumed then Except.ok p else parseTokenLoop d f p

/-- parser.parseCurrentToken: expand self-closing tags, run the token through
the parsing routines until consumed, then synthesise the matching end tag. -/
def parseCurrentToken (d : Dispatch) (p : Parser) : Except String Parser := do
  let p := if p.tok.type == .SelfClosingTag then
      {p with hasSelfClosingToken := true, tok := {p.tok with type := .StartTag}}
    else p
  let p ← parseTokenLoop d 100 p
  if p.hasSelfClosingToken then
    d.parseImpliedToken .EndTag p.tok.data [] {p with hasSelfClosingToken := false}
  else Except.ok p

/-- parser.parseImpliedToken: save the real token and self-closing flag, run
the synthesised token to completion, then restore them. -/
def parseImpliedToken (d : Dispatch) (t : TokType) (data : String) (attr : List Attribute)
    (p : Parser) : Except String Parser := do
  let realToken := p.tok
  let selfClosing := p.hasSelfClosingToken
  let p1 ← parseCurrentToken d {p with tok := {type := t, data := data, attr := attr},
                                       hasSelfClosingToken := false}
  Except.ok {p1 with tok := realToken, hasSelfClosingToken := selfClosing}

/-- The fuel-exhausted dispatcher. -/
def errDispatch : Dispatch where
  runIM := fun _ _ => Except.error "out of fuel"
  parseImpliedToken := fun _ _ _ _ => Except.error "out of fuel"

/-- The dispatcher at a given fuel: each nested insertion-mode call or implied
token costs one unit. -/
def dispatchAt : Nat → Dispatch
  | 0 => errDispatch
  | f + 1 =>
    { runIM := fun im p =>
        match im with
        | .initial => initialIM (dispatchAt f) p
        | .beforeHTML => beforeHTMLIM (dispatchAt f) p
        | .beforeHead => beforeHeadIM (dispatchAt f) p
        | .inHead => inHeadIM (dispatchAt f) p
        | .afterHead => afterHeadIM (dispatchAt f) p
        | .inBody => inBodyIM (dispatchAt f) p
        | .text => textIM (dispatchAt f) p
        | .inTable => inTableIM (dispatchAt f) p
        | .inCaption => inCaptionIM (dispatchAt f) p
        | .inColumnGroup => inColumnGroupIM (dispatchAt f) p
        | .inTableBody => inTableBodyIM (dispatchAt f) p
        | .inRow => inRowIM (dispatchAt f) p
        | .inCell => inCellIM (dispatchAt f) p
        | .inSelect => inSelectIM (dispatchAt f) p
        | .inSelectInTable => inSelectInTableIM (dispatchAt f) p
        | .afterBody => afterBodyIM (dispatchAt f) p
        | .inFrameset => inFramesetIM (dispatchAt f) p
        | .afterFrameset => afterFramesetIM (dispatchAt f) p
        | .afterAfterBody => afterAfterBodyIM (dispatchAt f) p
        | .afterAfterFrameset => afterAfterFramesetIM (dispatchAt f) p,
      parseImpliedToken := fun t data attr p => parseImpliedToken (dispatchAt f) t data attr p }

/-- parser.parse: process each token the tokenizer yields, and finally the
EOF Error token (the Go loop runs parseCurrentToken once more after read
returns io.EOF). -/
def parse (d : Dispatch) : List Token → Parser → Except String Parser
  | [], p => parseCurrentToken d {p with tok := {type := .Error, data := "", attr := []}}
  | t :: ts, p => do
    let p ← parseCurrentToken d {p with tok := t}
    parse d ts p

/-- Modelled from the spec: the tokenizer boundary of spec 6 is represented by
the list of tokens it yields before the terminating EOF; Parse runs the tree
builder over that stream from the initial parser state of parse.go (scripting
and framesetOK true, initial insertion mode, a fresh Document node). -/
def Parse (tokens : List Token) : Except String Parser :=
  parse (dispatchAt 100) tokens
    {nodes := #[{type := .scopeMarkerNode}, {type := .DocumentNode}],
     doc := 1, scripting := true, framesetOK := true, im := .initial}

/-- A pure rendering of an arena subtree, for stating whole-tree results. -/
inductive NTree where
  | node (type : NodeType) (data : String) (ns : String) (children : List NTree)
deriving Repr

/-- Render the subtree at an arena index (fuel bounds the depth). -/
def toTree (p : Parser) : Nat → Nat → NTree
  | 0, _ => .node .ErrorNode "" "" []
  | f + 1, i =>
    let nd := getNode p i
    .node nd.type nd.data nd.ns (nd.child.map (fun c => toTree p f c))

/-- The document tree of a parse result. -/
def docTree (r : Except String Parser) : Except String NTree :=
  r.map (fun p => toTree p 32 p.doc)

/-- The selectScope scan in the words of the spec sentence behind claim C5:
walking the open-elements stack from the top, the first HTML-namespace element
whose tag is in the match tags is the result; the first HTML-namespace element
whose tag is neither in the match tags nor optgroup nor option stops the scan
with no match; every other element (foreign elements, and optgroup or option
ones in particular) never terminates the scan. -/
def selectScopeSpecScan (p : Parser) (matchTags : List String) : Nat → Option Nat
  | 0 => none
  | i + 1 =>
    let nd := getNode p (p.oe.getD i 0)
    if nd.ns = "" ∧ matchTags.contains nd.data then some i
    else if nd.ns = "" ∧ ¬ matchTags.contains nd.data ∧
            nd.data ≠ "optgroup" ∧ nd.data ≠ "option" then none
    else selectScopeSpecScan p matchTags i

/-- A state whose open-elements stack holds one div element, used to exercise
the unreachable tableRowScope arm of the scope scan. -/
def tableRowScopeParser : Parser :=
  {nodes := #[{type := .scopeMarkerNode}, {type := .DocumentNode},
              {type := .ElementNode, data := "div", parent := some 1}],
   doc := 1, oe := [2]}

/-- A state whose stack is html over table, for exercising popUntil. -/
def popUntilDemoParser : Parser :=
  {nodes := #[{type := .scopeMarkerNode}, {type := .DocumentNode},
              {type := .ElementNode, data := "html", parent := some 1, child := [3]},
              {type := .ElementNode, data := "table", parent := some 2}],
   doc := 1, oe := [2, 3]}

/-- Foreign content with one open svg element and a matching svg end tag. -/
def svgEndTagParser : Parser :=
  {nodes := #[{type := .scopeMarkerNode}, {type := .DocumentNode},
              {type := .ElementNode, data := "svg", ns := "svg", parent := some 1}],
   doc := 1, oe := [2], tok := {type := .EndTag, data := "svg"}}

/-- Foreign content whose stack bottom is an HTML element below a math mi
element, with a div end tag that matches neither. -/
def foreignHandBackParser : Parser :=
  {nodes := #[{type := .scopeMarkerNode}, {type := .DocumentNode},
              {type := .ElementNode, data := "p", parent := some 1, child := [3]},
              {type := .ElementNode, data := "mi", ns := "math", parent := some 2}],
   doc := 1, oe := [2, 3], im := .inBody, tok := {type := .EndTag, data := "div"}}

/-- A stack without any table whose root element has two element children,
used to watch where fosterParent puts a new node. -/
def fosterNoTableParser : Parser :=
  {nodes := #[{type := .scopeMarkerNode}, {type := .DocumentNode},
              {type := .ElementNode, data := "html", parent := some 1, child := [3, 4]},
              {type := .ElementNode, data := "x", parent := some 2},
              {type := .ElementNode, data := "y", parent := some 2},
              {type := .TextNode, data := "t"}],
   doc := 1, oe := [2]}

/-- The parser state fosterParent produces on fosterNoTableParser. -/
def fosterNoTableResult : Parser :=
  (fosterParent fosterNoTableParser 5).toOption.getD {}

/-- A table-free stack whose root has one element child, for the witness of
the amended foster-parent claim. -/
def fosterDemoParser : Parser :=
  {nodes := #[{type := .scopeMarkerNode}, {type := .DocumentNode},
              {type := .ElementNode, data := "html", parent := some 1, child := [3]},
              {type := .ElementNode, data := "x", parent := some 2},
              {type := .TextNode, data := "t"}],
   doc := 1, oe := [2]}

/-- A state with a single open b element that is also the only AFE entry,
driving the no-furthest-block branch of the adoption agency. -/
def adoptionDemoParser : Parser :=
  {nodes := #[{type := .scopeMarkerNode}, {type := .DocumentNode},
              {type := .ElementNode, data := "b", parent := some 1}],
   doc := 1, oe := [2], afe := [2]}

/-- The parser state from which claim C1 exercises an implied html start tag:
the state after initialIM has processed EOF. -/
def impliedDemoParser : Parser :=
  {nodes := #[{type := .scopeMarkerNode}, {type := .DocumentNode}],
   doc := 1, scripting := true, framesetOK := true, im := .beforeHTML, quirks := true}

/-- The parser state the implied html start tag produces on impliedDemoParser. -/
def impliedDemoResult : Parser :=
  (parseImpliedToken (dispatchAt 10) .StartTag "html" [] impliedDemoParser).toOption.getD {}

/-- C1: running the parser over the empty token stream returns without error a
Document node whose children are exactly the html element containing a
childless head element followed by a childless body element. -/
theorem parse_empty_input_skeleton :
    docTree (Parse []) =
      Except.ok (.node .DocumentNode "" ""
        [.node .ElementNode "html" ""
          [.node .ElementNode "head" "" [], .node .ElementNode "body" "" []]]) := by
  rfl

/-- C6 code behavior: a comment token processed in the inSelect insertion mode
(input: a select start tag, then a comment) is attached to the Document, not
to the current node; the open select element stays childless. -/
theorem inSelect_comment_goes_to_document :
    docTree (Parse [{type := .StartTag, data := "select"}, {type := .Comment, data := "x"}]) =
      Except.ok (.node .DocumentNode "" ""
        [.node .ElementNode "html" ""
          [.node .ElementNode "head" "" [],
           .node .ElementNode "body" "" [.node .ElementNode "select" "" []]],
         .node .CommentNode "x" "" []]) := by
  rfl

/-- C9: setOriginalIM stores the current insertion mode when the saved mode is
clear, and aborts (never silently overwrites) when it is already set. -/
theorem setOriginalIM_spec (p : Parser) :
    (p.originalIM = none → setOriginalIM p = Except.ok {p with originalIM := some p.im}) ∧
    (∀ m, p.originalIM = some m →
      setOriginalIM p = Except.error "html: bad parser state: originalIM was set twice") := by
  constructor
  · intro h
    simp [setOriginalIM, h]
  · intro m h
    simp [setOriginalIM, h]

/-- C9 witness: on a clear state the mode is saved; on a state already holding
a saved mode the call aborts. -/
theorem setOriginalIM_spec_witness :
    setOriginalIM {im := IM.inBody} =
      Except.ok {im := IM.inBody, originalIM := some IM.inBody} ∧
    setOriginalIM {im := IM.inBody, originalIM := some IM.text} =
      Except.error "html: bad parser state: originalIM was set twice" :=
  ⟨(setOriginalIM_spec {im := IM.inBody}).1 rfl,
   (setOriginalIM_spec {im := IM.inBody, originalIM := some IM.text}).2 IM.text rfl⟩

/-- C10: whenever parseImpliedToken completes, the parser's current token and
its hasSelfClosingToken flag are restored to exactly their values at entry. -/
theorem parseImpliedToken_restores (d : Dispatch) (t : TokType) (data : String)
    (attr : List Attribute) (p p' : Parser)
    (h : parseImpliedToken d t data attr p = Except.ok p') :
    p'.tok = p.tok ∧ p'.hasSelfClosingToken = p.hasSelfClosingToken := by
  unfold parseImpliedToken at h
  cases hc : parseCurrentToken d {p with tok := {type := t, data := data, attr := attr},
                                         hasSelfClosingToken := false} with
  | error e =>
    rw [hc] at h
    simp [Bind.bind, Except.bind] at h
  | ok q =>
    rw [hc] at h
    simp only [Bind.bind, Except.bind, Except.ok.injEq] at h
    subst h
    exact ⟨rfl, rfl⟩

/-- C10 witness: processing the implied html start tag from the state claim C1
reaches after EOF hits initialIM completes and restores the EOF token and the
clear self-closing flag. -/
theorem parseImpliedToken_restores_witness :
    impliedDemoResult.tok = impliedDemoParser.tok ∧
    impliedDemoResult.hasSelfClosingToken = impliedDemoParser.hasSelfClosingToken :=
  parseImpliedToken_restores (dispatchAt 10) .StartTag "html" [] impliedDemoParser
    impliedDemoResult (by rfl)

/-- C8 counterexample: with the tableRowScope argument, popUntil does not
return false with the stack unchanged on a missing match; the unreachable
scope arm aborts instead. -/
theorem popUntil_tableRowScope_aborts :
    popUntil tableRowScopeParser .tableRowScope ["p"] = Except.error "unreachable" ∧
    popUntil tableRowScopeParser .tableRowScope ["p"] ≠
      Except.ok (false, tableRowScopeParser) := by
  constructor
  · rfl
  · intro h
    rw [show popUntil tableRowScopeParser .tableRowScope ["p"] =
          Except.error "unreachable" from rfl] at h
    exact Except.noConfusion h

/-- C3 counterexample: in foreign content, the end-tag walk pops the stack down
through AND including the matched element: on stack [svg] with end tag svg the
stack becomes empty, not [svg] as popping down to but not including the match
would leave it. -/
theorem parseForeignContent_pops_matched_element :
    parseForeignContent errDispatch svgEndTagParser =
      Except.ok (true, {svgEndTagParser with oe := []}) ∧
    parseForeignContent errDispatch svgEndTagParser ≠
      Except.ok (true, svgEndTagParser) := by
  constructor
  · rfl
  · intro h
    rw [show parseForeignContent errDispatch svgEndTagParser =
          Except.ok (true, {svgEndTagParser with oe := []}) from rfl] at h
    simp only [Except.ok.injEq, Prod.mk.injEq, true_and] at h
    have h2 := congrArg Parser.oe h
    simp [svgEndTagParser] at h2

/-- C4 counterexample: with no table on the stack and a root with children
x and y, fosterParent puts the new text node between them (immediately before
the last child), not appended at the end. -/
theorem fosterParent_no_table_not_append :
    (fosterParent fosterNoTableParser 5).isOk = true ∧
    (getNode fosterNoTableResult 2).child = [3, 5, 4] ∧
    (getNode fosterNoTableResult 2).child ≠ [3, 4, 5] := by
  refine ⟨rfl, rfl, ?_⟩
  decide

theorem indexOfElementInScopeAux_selectScope (p : Parser) (mt : List String) :
    ∀ i, indexOfElementInScopeAux p .selectScope mt i =
      Except.ok (selectScopeSpecScan p mt i) := by
  intro i
  induction i with
  | zero => rfl
  | succ i ih =>
    unfold indexOfElementInScopeAux selectScopeSpecScan inScopeStep
    rw [ih]
    generalize (getNode p (p.oe.getD i 0)) = nd
    by_cases h1 : nd.ns = ""
    · by_cases h2 : nd.data ∈ mt
      · simp [h1, h2, Bind.bind, Except.bind]
      · by_cases h3 : nd.data = "optgroup"
        · rw [h3] at h2
          simp [h1, h2, h3, Bind.bind, Except.bind]
        · by_cases h4 : nd.data = "option"
          · rw [h4] at h2
            simp [h1, h2, h3, h4, Bind.bind, Except.bind]
          · simp [h1, h2, h3, h4, Bind.bind, Except.bind]
    · simp [h1, Bind.bind, Except.bind]

theorem inScopeStep_ok (p : Parser) (s : scope) (mt : List String) (i : Nat)
    (hs : s = scope.defaultScope ∨ s = .listItemScope ∨ s = .buttonScope ∨
          s = .tableScope ∨ s = .selectScope) :
    ∃ r, inScopeStep p s mt i = Except.ok r := by
  rcases hs with h | h | h | h | h <;> subst h <;>
    unfold inScopeStep <;>
    dsimp only [Bind.bind, Except.bind] <;>
    (repeat' split) <;> exact ⟨_, rfl⟩

theorem indexOfElementInScopeAux_ok (p : Parser) (s : scope) (mt : List String)
    (hs : s = scope.defaultScope ∨ s = .listItemScope ∨ s = .buttonScope ∨
          s = .tableScope ∨ s = .selectScope) :
    ∀ i, ∃ r, indexOfElementInScopeAux p s mt i = Except.ok r := by
  intro i
  induction i with
  | zero => exact ⟨none, rfl⟩
  | succ i ih =>
    obtain ⟨r, hr⟩ := inScopeStep_ok p s mt i hs
    unfold indexOfElementInScopeAux
    rw [hr]
    cases r with
    | some v => exact ⟨v, by simp [Bind.bind, Except.bind]⟩
    | none =>
      obtain ⟨r2, hr2⟩ := ih
      exact ⟨r2, by simp [Bind.bind, Except.bind, hr2]⟩

/-- C8 amended: for the five scopes whose scan arm exists (default, listItem,
button, table and select; the tableRowScope and tableBodyScope arms abort, and
parse.go never calls popUntil with them), popUntil never aborts, pops the
matched element and everything above it off the open-elements stack when the
scan finds an in-scope match, and returns false leaving the stack completely
unchanged when it does not. -/
theorem popUntil_spec (p : Parser) (s : scope) (matchTags : List String)
    (hs : s = scope.defaultScope ∨ s = .listItemScope ∨ s = .buttonScope ∨
          s = .tableScope ∨ s = .selectScope) :
    (popUntil p s matchTags).isOk = true ∧
    (∀ i, indexOfElementInScope p s matchTags = Except.ok (some i) →
        popUntil p s matchTags = Except.ok (true, {p with oe := p.oe.take i})) ∧
    (indexOfElementInScope p s matchTags = Except.ok none →
        popUntil p s matchTags = Except.ok (false, p)) := by
  obtain ⟨r, hr⟩ := indexOfElementInScopeAux_ok p s matchTags hs p.oe.length
  have hr' : indexOfElementInScope p s matchTags = Except.ok r := hr
  refine ⟨?_, ?_, ?_⟩
  · unfold popUntil
    rw [hr']
    cases r <;> simp [Bind.bind, Except.bind, Except.isOk, Except.toBool]
  · intro i hi
    unfold popUntil
    rw [hi]
    simp [Bind.bind, Except.bind]
  · intro hi
    unfold popUntil
    rw [hi]
    simp [Bind.bind, Except.bind]

/-- C8 witness: on the html/table stack, popUntil in tableScope matching table
pops the table (the match at index 1) and leaves html. -/
theorem popUntil_spec_witness :
    popUntil popUntilDemoParser .tableScope ["table"] =
      Except.ok (true, {popUntilDemoParser with oe := popUntilDemoParser.oe.take 1}) :=
  (popUntil_spec popUntilDemoParser .tableScope ["table"]
    (Or.inr (Or.inr (Or.inr (Or.inl rfl))))).2.1 1 (by rfl)

theorem foreignEndTagLoopAux_skip (p : Parser) (k : Nat)
    (habove : ∀ j, k < j → j < p.oe.length →
      (getNode p (p.oe.getD j 0)).ns ≠ "" ∧
      equalFold (getNode p (p.oe.getD j 0)).data p.tok.data = false) :
    ∀ n, k < n → n ≤ p.oe.length →
      foreignEndTagLoopAux p n = foreignEndTagLoopAux p (k + 1) := by
  intro n
  induction n with
  | zero => omega
  | succ n ih =>
    intro hkn hle
    rcases Nat.lt_or_ge k n with h | h
    · have hj := habove n (by omega) (by omega)
      unfold foreignEndTagLoopAux
      rw [if_neg (by simpa using hj.1), if_neg (by simpa using hj.2)]
      exact ih h (by omega)
    · have : n = k := by omega
      subst this
      rfl

/-- C3 amended: for every end-tag token in foreign content, the handler walks
the open-elements stack from the top looking for a case-insensitive tag match;
when an HTML-namespace element is reached before any match, control is handed
back to the current insertion mode handler, and on a match the stack is popped
down through AND including the matched element and the token is consumed. -/
theorem parseForeignContent_endTag_spec (d : Dispatch) (p : Parser) (k : Nat)
    (htok : p.tok.type = .EndTag)
    (hk : k < p.oe.length)
    (habove : ∀ j, k < j → j < p.oe.length →
      (getNode p (p.oe.getD j 0)).ns ≠ "" ∧
      equalFold (getNode p (p.oe.getD j 0)).data p.tok.data = false) :
    ((getNode p (p.oe.getD k 0)).ns = "" →
        parseForeignContent d p = d.runIM p.im p) ∧
    ((getNode p (p.oe.getD k 0)).ns ≠ "" →
      equalFold (getNode p (p.oe.getD k 0)).data p.tok.data = true →
        parseForeignContent d p = Except.ok (true, {p with oe := p.oe.take k})) := by
  have hloop : foreignEndTagLoopAux p p.oe.length = foreignEndTagLoopAux p (k + 1) :=
    foreignEndTagLoopAux_skip p k habove p.oe.length hk le_rfl
  have hpfc : parseForeignContent d p =
      (match foreignEndTagLoopAux p p.oe.length with
       | none => d.runIM p.im p
       | some oe' => Except.ok (true, {p with oe := oe'})) := by
    unfold parseForeignContent
    rw [htok]
  constructor
  · intro hns
    have hstep : foreignEndTagLoopAux p (k + 1) = none := by
      unfold foreignEndTagLoopAux
      rw [if_pos (by simpa using hns)]
    rw [hpfc, hloop, hstep]
  · intro hns hfold
    have hstep : foreignEndTagLoopAux p (k + 1) = some (p.oe.take k) := by
      unfold foreignEndTagLoopAux
      rw [if_neg (by simpa using hns), if_pos (by simpa using hfold)]
    rw [hpfc, hloop, hstep]

/-- C3 witness: the hand-back case on a concrete state: scanning from the top
past a math mi element that does not match the div end tag, the walk reaches
the HTML p element and hands control to the current insertion mode handler. -/
theorem parseForeignContent_endTag_spec_witness :
    parseForeignContent (dispatchAt 5) foreignHandBackParser =
      (dispatchAt 5).runIM foreignHandBackParser.im foreignHandBackParser :=
  (parseForeignContent_endTag_spec (dispatchAt 5) foreignHandBackParser 0 rfl
    (by decide)
    (by
      intro j h1 h2
      have hlen : foreignHandBackParser.oe.length = 2 := rfl
      rw [hlen] at h2
      have : j = 1 := by omega
      subst this
      exact ⟨by decide, by decide⟩)).1 rfl

theorem revIndexAux_popThroughAux (fe : Nat) (l : List Nat) :
    ∀ j, revIndexAux fe l = some j → popThroughAux fe l = Except.ok (l.drop (j + 1)) := by
  induction l with
  | nil => intro j h; simp [revIndexAux] at h
  | cons a l ih =>
    intro j h
    unfold revIndexAux at h
    by_cases ha : a = fe
    · rw [if_pos ha] at h
      cases h
      unfold popThroughAux
      rw [if_pos ha]
      rfl
    · rw [if_neg ha] at h
      unfold popThroughAux
      rw [if_neg ha]
      cases hr : revIndexAux fe l with
      | none => rw [hr] at h; simp at h
      | some j' =>
        rw [hr] at h
        simp at h
        subst h
        rw [ih j' hr]
        rfl

theorem revIndexAux_lt (fe : Nat) (l : List Nat) :
    ∀ j, revIndexAux fe l = some j → j < l.length := by
  induction l with
  | nil => intro j h; simp [revIndexAux] at h
  | cons a l ih =>
    intro j h
    unfold revIndexAux at h
    by_cases ha : a = fe
    · rw [if_pos ha] at h
      cases h
      simp
    · rw [if_neg ha] at h
      cases hr : revIndexAux fe l with
      | none => rw [hr] at h; simp at h
      | some j' =>
        rw [hr] at h
        simp at h
        subst h
        have := ih j' hr
        simp
        omega

theorem popThrough_take (s : List Nat) (fe : Nat) (k : Nat)
    (h : stackIndex s fe = some k) : popThrough s fe = Except.ok (s.take k) := by
  unfold stackIndex at h
  cases hr : revIndexAux fe s.reverse with
  | none => rw [hr] at h; simp at h
  | some j =>
    rw [hr] at h
    simp at h
    have hj := revIndexAux_lt fe s.reverse j hr
    rw [List.length_reverse] at hj
    have hp := revIndexAux_popThroughAux fe s.reverse j hr
    unfold popThrough
    rw [hp]
    simp [Bind.bind, Except.bind]
    rw [List.reverse_drop, List.reverse_reverse, List.length_reverse]
    congr 1
    omega

/-- C2: in the adoption agency, whenever the formatting element is found in
the AFE list (at arena index fe), sits on the open-elements stack at index k,
the tag is in default scope, and no special element sits at or above stack
index k (the formatting tags the algorithm is invoked with are never special
elements themselves), the stack of open elements is popped down through and
including the formatting element, the element is removed from the AFE list,
and the algorithm returns without any further iteration. -/
theorem inBodyEndTagFormatting_no_furthest_block (p : Parser) (tag : String) (fe k : Nat)
    (hfind : findFormattingElementAux p tag p.afe.length = some fe)
    (hidx : stackIndex p.oe fe = some k)
    (hscope : elementInScope p .defaultScope [tag] = Except.ok true)
    (hnospecial : ∀ e ∈ p.oe.drop k, isSpecialElement (getNode p e) = false) :
    inBodyEndTagFormatting p tag =
      Except.ok {p with oe := p.oe.take k, afe := stackRemove p.afe fe} := by
  have hfb : (p.oe.drop k).find? (fun e => isSpecialElement (getNode p e)) = none :=
    List.find?_eq_none.mpr (fun x hx => by simp [hnospecial x hx])
  have hpop : popThrough p.oe fe = Except.ok (p.oe.take k) := popThrough_take p.oe fe k hidx
  unfold inBodyEndTagFormatting inBodyEndTagFormattingLoop
  simp only [hfind, hidx, hscope, hfb, hpop, Bind.bind, Except.bind, Bool.not_true,
    Bool.false_eq_true, if_false]

/-- C2 witness: with a lone open b element that is the only AFE entry, the end
tag b pops it and clears the AFE list in one iteration. -/
theorem inBodyEndTagFormatting_no_furthest_block_witness :
    inBodyEndTagFormatting adoptionDemoParser "b" =
      Except.ok {adoptionDemoParser with oe := [], afe := []} :=
  inBodyEndTagFormatting_no_furthest_block adoptionDemoParser "b" 2 0 (by rfl) (by rfl)
    (by rfl) (by decide)

theorem listGetI_nat (l : List Nat) (i : Nat) (h : i < l.length) :
    listGetI l (i : Int) = Except.ok (l.getD i 0) := by
  unfold listGetI
  rw [if_pos ⟨Int.ofNat_nonneg i, by exact_mod_cast h⟩]
  simp

theorem findTableAux_none (p : Parser)
    (hnotable : ∀ e ∈ p.oe, (getNode p e).data ≠ "table") :
    ∀ i, i ≤ p.oe.length → findTableAux p i = (none, -1) := by
  intro i
  induction i with
  | zero => intro _; rfl
  | succ i ih =>
    intro hle
    unfold findTableAux
    have hmem : p.oe.getD i 0 ∈ p.oe := by
      rw [List.getD_eq_getElem?_getD, List.getElem?_eq_getElem (by omega)]
      exact List.getElem_mem _
    rw [if_neg (hnotable _ hmem)]
    exact ih (by omega)

theorem rangeChildScanGo_none (cs : List Nat) (hne : cs ≠ []) :
    ∀ j, rangeChildScanGo none cs j = j + cs.length - 1 := by
  induction cs with
  | nil => exact absurd rfl hne
  | cons a t ih =>
    intro j
    cases t with
    | nil => rfl
    | cons b t' =>
      unfold rangeChildScanGo
      rw [if_neg (by simp)]
      rw [ih (by simp) (j + 1)]
      simp
      omega

theorem listGetI_zero (a : Nat) (t : List Nat) : listGetI (a :: t) 0 = Except.ok a := by
  unfold listGetI
  rw [if_pos ⟨le_refl (0 : Int), by exact_mod_cast Nat.succ_pos t.length⟩]
  simp

theorem rangeChildScan_none (cs : List Nat) (hne : cs ≠ []) (iOld : Int) :
    rangeChildScan cs none iOld = ((cs.length - 1 : Nat) : Int) := by
  cases cs with
  | nil => exact absurd rfl hne
  | cons a t =>
    unfold rangeChildScan
    rw [rangeChildScanGo_none (a :: t) (by simp) 0]
    simp

/-- C4 amended: for a call with no table element on the open-elements stack
and a nonempty root child list, the node is inserted immediately before the
last child of the root (first) element of the stack, not appended at its end
(when the second-to-last child and the node are both text the code
concatenates there instead, which the last hypothesis excludes). -/
theorem fosterParent_no_table_spec (p0 : Parser) (n r : Nat) (rest cs : List Nat)
    (hoe : p0.oe = r :: rest)
    (hnotable : ∀ e ∈ p0.oe, (getNode p0 e).data ≠ "table")
    (hcs : (getNode p0 r).child = cs)
    (hne : cs ≠ [])
    (hnocoalesce : ¬ (1 < cs.length ∧
       (getNode p0 (cs.getD (cs.length - 2) 0)).type = .TextNode ∧
       (getNode p0 n).type = .TextNode)) :
    fosterParent p0 n = Except.ok (
      modifyNode
        (modifyNode {p0 with fosterParenting := false} r
          (fun nd => {nd with child := insertAt (cs.length - 1) n cs}))
        n (fun nd => {nd with parent := some r})) := by
  have hlen0 : cs.length ≠ 0 := by simpa using hne
  have hft : findTableAux {p0 with fosterParenting := false}
      {p0 with fosterParenting := false}.oe.length = (none, -1) :=
    findTableAux_none {p0 with fosterParenting := false} hnotable _ le_rfl
  have hget0 : listGetI {p0 with fosterParenting := false}.oe 0 = Except.ok r := by
    show listGetI p0.oe 0 = Except.ok r
    rw [hoe]
    exact listGetI_zero r rest
  have hcs' : (getNode {p0 with fosterParenting := false} r).child = cs := hcs
  have hscan : rangeChildScan cs none (-1) = ((cs.length - 1 : Nat) : Int) :=
    rangeChildScan_none cs hne (-1)
  have hne' : ((cs.length - 1 : Nat) : Int) ≠ ((cs.length : Nat) : Int) := by omega
  have hbounds : (0 : Int) ≤ ((cs.length - 1 : Nat) : Int) ∧
      ((cs.length - 1 : Nat) : Int) < ((cs.length : Nat) : Int) := by omega
  unfold fosterParent
  simp only [hft, hget0, hcs', hscan, Bind.bind, Except.bind]
  by_cases hlen : 1 < cs.length
  · have hpos : (0 : Int) < ((cs.length - 1 : Nat) : Int) := by
      exact_mod_cast Nat.sub_pos_of_lt hlen
    rw [if_pos hpos]
    have hsub : ((cs.length - 1 : Nat) : Int) - 1 = ((cs.length - 2 : Nat) : Int) := by
      omega
    rw [hsub, listGetI_nat cs (cs.length - 2) (by omega)]
    simp only [Bind.bind, Except.bind]
    rw [if_neg (by
      simp only [Bool.and_eq_true, decide_eq_true_eq]
      intro hc
      exact hnocoalesce ⟨hlen, hc.1, hc.2⟩)]
    unfold fosterInsert
    rw [if_neg hne', if_pos hbounds]
    simp
  · have h1 : cs.length = 1 := by omega
    have hzero : ((cs.length - 1 : Nat) : Int) = 0 := by omega
    rw [hzero, if_neg (lt_irrefl (0 : Int))]
    unfold fosterInsert
    rw [if_neg (by omega), if_pos (by constructor <;> omega)]
    have : cs.length - 1 = 0 := by omega
    rw [this]
    simp

/-- C4 witness: on a table-free stack whose root html element has the single
child x, fosterParent places the text node at position 0, before x. -/
theorem fosterParent_no_table_spec_witness :
    fosterParent fosterDemoParser 4 =
      Except.ok (
        modifyNode
          (modifyNode {fosterDemoParser with fosterParenting := false} 2
            (fun nd => {nd with child := insertAt 0 4 [3]}))
          4 (fun nd => {nd with parent := some 2})) :=
  fosterParent_no_table_spec fosterDemoParser 4 2 [] [3] rfl (by decide) rfl
    (by decide) (by decide)

/-- C5: for every open-elements stack and list of match tags, the selectScope
scan of indexOfElementInScope is exactly the spec-worded scan: it returns the
first (topmost) HTML-namespace element whose tag is among the match tags, it
stops with no match (-1) at the first HTML-namespace element whose tag is
neither in the match tags nor optgroup nor option, and no other element — in
particular none tagged optgroup or option — terminates it. -/
theorem indexOfElementInScope_selectScope_spec (p : Parser) (matchTags : List String) :
    indexOfElementInScope p .selectScope matchTags =
      Except.ok (selectScopeSpecScan p matchTags p.oe.length) :=
  indexOfElementInScopeAux_selectScope p matchTags p.oe.length
